import Mathlib

/-!
# PATTauProducer::produce

A shallow embedding of `PhysicsTools/PatAlgos/src/PATTauProducer.cc`.

* Real-valued quantities are rationals: values are finite and there is no
  NaN. The one place where the code compares at `float` precision, the
  generator match of lines 144-152, narrows with `floatOfDouble`.
* The event store is a record of optional products: `getByLabel` on an absent
  product throws, which is what the two `try` blocks of `produce` catch.
* References held by a candidate (tag info, leading track) resolve, and the
  view of generated particles holds `GenParticleCandidate`s.
* Library routines that live outside the file (`std::sort`, `pt()`, `DeltaR`,
  the resolution and likelihood calculators) are the fields of `External`;
  the calculators are taken as constructed. `std::sort` is constrained by
  `StdSortContract` where a property needs it, and `GnuSort.sort` is the
  libstdc++ algorithm.
* `produce` returns the diagnostics it logged, the collection it put into the
  event (if it got that far) and the exception that ended it (if any).
-/

namespace PATTauProducer

/-! ## Data model -/

/-- The `reco::Particle::LorentzVector` of a candidate: `(px, py, pz, E)`. -/
structure LorentzVector where
  px : Rat
  py : Rat
  pz : Rat
  e : Rat
  deriving DecidableEq, Repr

/-- The `reco::Particle::Point` of a candidate: `(x, y, z)`. -/
structure Point where
  x : Rat
  y : Rat
  z : Rat
  deriving DecidableEq, Repr

/-- A `reco::GenParticleCandidate`, by the arguments of its constructor
`GenParticleCandidate(q, p4, vtx, pdgId, status, integerCharge)`. -/
structure GenParticleCandidate where
  charge : Int
  p4 : LorentzVector
  vertex : Point
  pdgId : Int
  status : Int
  integerCharge : Bool
  deriving DecidableEq, Repr

/-- A `reco::PFJet`, by the accessors `produce` reads. -/
structure PFJet where
  chargedEmEnergyFraction : Rat
  neutralEmEnergyFraction : Rat
  deriving DecidableEq, Repr

/-- A `reco::CaloJet`, by the accessors `produce` reads. -/
structure CaloJet where
  emEnergyFraction : Rat
  energy : Rat
  deriving DecidableEq, Repr

/-- The object behind the jet reference of a tau's tag info, by its concrete
(dynamic) type. `other` is any object that is neither a `PFJet` nor a
`CaloJet`, and also the null pointer. -/
inductive Jet where
  | pfJet (j : PFJet)
  | caloJet (j : CaloJet)
  | other
  deriving DecidableEq, Repr

/-- The cast `dynamic_cast<const reco::PFJet*>(...)`: null unless the object is
a `PFJet`. -/
def Jet.toPFJet : Jet → Option PFJet
  | .pfJet j => some j
  | _ => none

/-- The cast `dynamic_cast<const reco::CaloJet*>(...)`: null unless the object
is a `CaloJet`. -/
def Jet.toCaloJet : Jet → Option CaloJet
  | .caloJet j => some j
  | _ => none

/-- The part of a raw tau that `pat::Tau` copies (`Tau aTau(*thePFTau)`): its
four-momentum; `energy()` is `p4.e`. -/
structure BaseTau where
  p4 : LorentzVector
  deriving DecidableEq, Repr

/-- A `reco::PFTau`: base part, the jet behind
`pfTauTagInfoRef()->pfjetRef()`, and `leadTrack()->p()`. -/
structure PFTau where
  base : BaseTau
  jet : Jet
  leadTrackP : Rat
  deriving DecidableEq, Repr

/-- A `reco::CaloTau`: base part, the jet behind
`caloTauTagInfoRef()->calojetRef()`, and `leadTrack()->p()`. -/
structure CaloTau where
  base : BaseTau
  jet : Jet
  leadTrackP : Rat
  deriving DecidableEq, Repr

/-- The reference `PFTauRef(PFtaus, i)` or `CaloTauRef(Calotaus, i)`: which
collection and which position. -/
inductive TauRef where
  | pf (key : Nat)
  | calo (key : Nat)
  deriving DecidableEq, Repr

/-- Payload attached by `ObjectResolutionCalc::operator()`. -/
abbrev ResolutionInfo := List Rat

/-- Payload attached by `LeptonLRCalc::calcLikelihood`. -/
abbrev LikelihoodInfo := List Rat

/-- A `pat::Tau`. `origin` records which raw candidate the record was
copy-constructed from; nothing in `produce` reads it. -/
structure Tau where
  origin : TauRef
  base : BaseTau
  emEnergyFraction : Rat
  eOverP : Rat
  genLepton : Option GenParticleCandidate
  resolution : ResolutionInfo
  lrValues : LikelihoodInfo
  deriving DecidableEq, Repr

/-- Modelled from the spec: the constructor `Tau::Tau(const TauType&)` is
declared in `DataFormats/PatCandidates`, not in this file. It copies the raw
candidate and leaves every derived field at its default (unset) value. -/
def Tau.ofCandidate (origin : TauRef) (base : BaseTau) : Tau :=
  { origin := origin, base := base, emEnergyFraction := 0, eOverP := 0,
    genLepton := none, resolution := [], lrValues := [] }

/-- An isolation discriminator (`PFTauDiscriminatorByIsolation`,
`CaloTauDiscriminatorByIsolation`): the verdict stored for the candidate at a
position, `none` when the discriminator has no entry for it. -/
abbrev Discriminator := Nat → Option Bool

/-- One event, as the products `produce` asks for; `none` is a product that
`getByLabel` does not find. -/
structure Event where
  PFtaus : Option (List PFTau)
  PFtauIsolator : Option Discriminator
  Calotaus : Option (List CaloTau)
  CalotauIsolator : Option Discriminator
  particles : Option (List GenParticleCandidate)

/-- The configurables `produce` reads. -/
structure Config where
  addGenMatch : Bool
  addResolutions : Bool
  addLRValues : Bool
  deriving DecidableEq, Repr

/-- A message sent to the message logger. -/
inductive Diagnostic where
  | logWarning (category : String) (message : String)
  | logError (category : String) (message : String)
  deriving DecidableEq, Repr

/-- Whether a diagnostic is warning-level. -/
def Diagnostic.isWarning : Diagnostic → Bool
  | .logWarning _ _ => true
  | .logError _ _ => false

/-- Whether a diagnostic is error-level. -/
def Diagnostic.isError : Diagnostic → Bool
  | .logWarning _ _ => false
  | .logError _ _ => true

/-- The exceptions that leave `produce`. -/
inductive Fatal where
  | productNotFound
  | invalidReference
  deriving DecidableEq, Repr

/-- What one call of `produce` did: the diagnostics in the order they were
logged, the collection handed to `iEvent.put` (`none` when `put` was not
reached), and the exception that ended the call (`none` when it returned). -/
structure Outcome where
  log : List Diagnostic
  put : Option (List Tau)
  thrown : Option Fatal
  deriving DecidableEq, Repr

/-- The routines `produce` calls that are defined outside the file. -/
structure External where
  /-- The call `std::sort(first, last, comp)` on a vector, as a function of
  the comparator and the contents. -/
  stdSort : {α : Type} → (α → α → Bool) → List α → List α
  /-- The accessor `reco::Particle::pt()`. -/
  pt : LorentzVector → Rat
  /-- The functor call `DeltaR<reco::Candidate>()(a, b)`. -/
  deltaR : LorentzVector → LorentzVector → Rat
  /-- The call `(*theResoCalc_)(aTau)`: the resolution estimates it
  attaches. -/
  theResoCalc : Tau → ResolutionInfo
  /-- The call `theLeptonLRCalc_->calcLikelihood(aTau, iEvent)`: the
  likelihood values it attaches. -/
  calcLikelihood : Tau → Event → LikelihoodInfo

/-! ## The code -/

/-- Modelled from the spec: `pTTauComparator_` is a `GreaterByPt<Tau>` declared
in the header, not in this file; it orders by descending transverse
momentum: `t1.pt() > t2.pt()`. -/
def pTTauComparator (X : External) (t1 t2 : Tau) : Bool :=
  decide (X.pt t1.base.p4 > X.pt t2.base.p4)

/-- Lines 65-69: both `getByLabel` calls of the first `try` block succeeded. -/
def hasPFtaus (iEvent : Event) : Bool :=
  match iEvent.PFtaus with
  | none => false
  | some _ =>
    match iEvent.PFtauIsolator with
    | none => false
    | some _ => true

/-- Lines 70-74: both `getByLabel` calls of the second `try` block
succeeded. -/
def hasCalotaus (iEvent : Event) : Bool :=
  match iEvent.Calotaus with
  | none => false
  | some _ =>
    match iEvent.CalotauIsolator with
    | none => false
    | some _ => true

/-- The warning of line 81. -/
def noTauWarning : Diagnostic :=
  .logWarning "DataSource"
    "WARNING! No Tau collection found. This missing input will not block the job. Instead, an empty tau collection is being be produced."

/-- The error of line 84. -/
def ambiguousError : Diagnostic :=
  .logError "DataSource" "Ambiguous datasource. Taus can be both CaloTaus or PF taus."

/-- Lines 75-85: the diagnostics logged after the two fetch attempts. -/
def sourceDiagnostics (iEvent : Event) : List Diagnostic :=
  (if !hasCalotaus iEvent && !hasPFtaus iEvent then [noTauWarning] else [])
    ++ (if hasCalotaus iEvent && hasPFtaus iEvent then [ambiguousError] else [])

/-- Lines 88-91: the generated particles are fetched only when matching is
on; the fetch throws when the product is absent. Without matching the handle
stays empty and is never read. -/
def getParticles (cfg : Config) (iEvent : Event) :
    Except Fatal (List GenParticleCandidate) :=
  if cfg.addGenMatch then
    match iEvent.particles with
    | none => .error .productNotFound
    | some ps => .ok ps
  else .ok []

/-- Lines 109-115: construct the `pat::Tau` of a `PFTau` and set the
additional variables when the jet is a `PFJet`. -/
def makePFTau (key : Nat) (thePFTau : PFTau) : Tau :=
  let aTau := Tau.ofCandidate (.pf key) thePFTau.base
  match thePFTau.jet.toPFJet with
  | some pfJet =>
    { aTau with
      emEnergyFraction := pfJet.chargedEmEnergyFraction + pfJet.neutralEmEnergyFraction
      eOverP := thePFTau.base.p4.e / thePFTau.leadTrackP }
  | none => aTau

/-- Lines 126-132: construct the `pat::Tau` of a `CaloTau` and set the
additional variables when the jet is a `CaloJet`. -/
def makeCaloTau (key : Nat) (theCaloTau : CaloTau) : Tau :=
  let aTau := Tau.ofCandidate (.calo key) theCaloTau.base
  match theCaloTau.jet.toCaloJet with
  | some tauJet =>
    { aTau with
      emEnergyFraction := tauJet.emEnergyFraction
      eOverP := tauJet.energy / theCaloTau.leadTrackP }
  | none => aTau

/-- Lines 103-118: the loop over the `PFTau`s from position `iPFTau` on, with
`patTaus` the vector built so far. A missing verdict throws. -/
def pfLoop (isolator : Discriminator) :
    Nat → List PFTau → List Tau → Except Fatal (List Tau)
  | _, [], patTaus => .ok patTaus
  | iPFTau, thePFTau :: rest, patTaus =>
    match isolator iPFTau with
    | none => .error .invalidReference
    | some disc =>
      if !disc then pfLoop isolator (iPFTau + 1) rest patTaus
      else pfLoop isolator (iPFTau + 1) rest (patTaus ++ [makePFTau iPFTau thePFTau])

/-- Lines 120-135: the loop over the `CaloTau`s from position `iCaloTau` on,
with `patTaus` the vector built so far. A missing verdict throws. -/
def caloLoop (isolator : Discriminator) :
    Nat → List CaloTau → List Tau → Except Fatal (List Tau)
  | _, [], patTaus => .ok patTaus
  | iCaloTau, theCaloTau :: rest, patTaus =>
    match isolator iCaloTau with
    | none => .error .invalidReference
    | some disc =>
      if !disc then caloLoop isolator (iCaloTau + 1) rest patTaus
      else caloLoop isolator (iCaloTau + 1) rest (patTaus ++ [makeCaloTau iCaloTau theCaloTau])

/-- Lines 99-136: fill `patTaus` from the ParticleFlow source when it
resolved, else from the Calorimeter source when that resolved, else leave it
empty. -/
def buildTaus (iEvent : Event) : Except Fatal (List Tau) :=
  match iEvent.PFtaus, iEvent.PFtauIsolator with
  | some PFtaus, some PFtauIsolator => pfLoop PFtauIsolator 0 PFtaus []
  | _, _ =>
    match iEvent.Calotaus, iEvent.CalotauIsolator with
    | some Calotaus, some CalotauIsolator => caloLoop CalotauIsolator 0 Calotaus []
    | _, _ => .ok []

/-! ## Narrowing to `float` -/

/-- The position of the highest set bit of `n` (0 for `n ≤ 1`), by halving at
most `steps` times. -/
def ilog2 : Nat → Nat → Nat
  | 0, _ => 0
  | steps + 1, n => if n ≤ 1 then 0 else ilog2 steps (n / 2) + 1

/-- The binary exponent of a positive value: the `e` with
`2^e ≤ a < 2^(e+1)`. -/
def binade (a : Rat) : Int :=
  let k : Int := (ilog2 a.num.natAbs a.num.natAbs : Int) - (ilog2 a.den a.den : Int)
  if (2 : Rat) ^ k ≤ a then k else k - 1

/-- The integer nearest to a value, the even one of the two when it lies
halfway. -/
def roundHalfEven (r : Rat) : Int :=
  let n := ⌊r⌋
  let d := r - n
  if d < 1 / 2 then n else if 1 / 2 < d then n + 1 else if n % 2 = 0 then n else n + 1

/-- The conversion of a `double` to `float` (IEEE 754 binary32: 24 significant
bits, exponents from -126 to 127, round to nearest, ties to even), as done by
`float currDR = ...` on line 149. The two infinities are written `2^128` and
`-2^128`, which keeps their order against every finite `float`. -/
def floatOfDouble (x : Rat) : Rat :=
  if x = 0 then 0
  else
    let e := max (binade |x|) (-126)
    if 127 < e then (if 0 < x then 2 ^ 128 else -(2 ^ 128))
    else
      let quantum : Rat := 2 ^ (e - 23)
      let m := roundHalfEven (|x| / quantum) * quantum
      if 0 < x then m else -m

/-! ## The code, continued -/

/-- Line 143: the null best match,
`GenParticleCandidate(0, LorentzVector(0,0,0,0), Point(0,0,0), 0, 0, true)`. -/
def nullGenTau : GenParticleCandidate :=
  { charge := 0, p4 := ⟨0, 0, 0, 0⟩, vertex := ⟨0, 0, 0⟩, pdgId := 0, status := 0,
    integerCharge := true }

/-- Line 148: `abs(aGenTau.pdgId())==15 && aGenTau.status()==2`. -/
def isGenTau (aGenTau : GenParticleCandidate) : Bool :=
  aGenTau.pdgId.natAbs == 15 && aGenTau.status == 2

/-- Lines 146-155: the scan of the generated particles, carrying
`(bestGenTau, bestDR)`. Both distances are `float`s: `currDR` is the `double`
of the `DeltaR` functor narrowed to `float`. -/
def matchLoop (X : External) (aTau : Tau) :
    List GenParticleCandidate → GenParticleCandidate × Rat → GenParticleCandidate × Rat
  | [], best => best
  | aGenTau :: rest, (bestGenTau, bestDR) =>
    if isGenTau aGenTau then
      let currDR := floatOfDouble (X.deltaR aGenTau.p4 aTau.base.p4)
      if currDR < bestDR then matchLoop X aTau rest (aGenTau, currDR)
      else matchLoop X aTau rest (bestGenTau, bestDR)
    else matchLoop X aTau rest (bestGenTau, bestDR)

/-- Lines 143-156: the generated tau handed to `setGenLepton`; the scan starts
from `float bestDR = 5.` (5 is a `float`). -/
def bestGenTau (X : External) (particles : List GenParticleCandidate) (aTau : Tau) :
    GenParticleCandidate :=
  (matchLoop X aTau particles (nullGenTau, 5)).1

/-- Lines 141-165: the body of the second loop, for one `pat::Tau`. -/
def enrich (X : External) (cfg : Config) (iEvent : Event)
    (particles : List GenParticleCandidate) (aTau : Tau) : Tau :=
  let aTau := if cfg.addGenMatch then
    { aTau with genLepton := some (bestGenTau X particles aTau) } else aTau
  let aTau := if cfg.addResolutions then
    { aTau with resolution := X.theResoCalc aTau } else aTau
  let aTau := if cfg.addLRValues then
    { aTau with lrValues := X.calcLikelihood aTau iEvent } else aTau
  aTau

/-- The member function `PATTauProducer::produce`, lines 56-178. -/
def produce (X : External) (cfg : Config) (iEvent : Event) : Outcome :=
  let log := sourceDiagnostics iEvent
  match getParticles cfg iEvent with
  | .error ex => { log := log, put := none, thrown := some ex }
  | .ok particles =>
    match buildTaus iEvent with
    | .error ex => { log := log, put := none, thrown := some ex }
    | .ok patTaus =>
      let patTaus := patTaus.map (enrich X cfg iEvent particles)
      let patTaus := X.stdSort (pTTauComparator X) patTaus
      { log := log, put := some patTaus, thrown := none }

/-! ## The contract of `std::sort` -/

/-- The requirement the C++ standard puts on the comparator of `std::sort`: a
strict weak ordering (irreflexive, transitive, and with a transitive
equivalence `!comp(a,b) && !comp(b,a)`). -/
def StrictWeakOrder {α : Type} (comp : α → α → Bool) : Prop :=
  (∀ a, comp a a = false) ∧
  (∀ a b c, comp a b = true → comp b c = true → comp a c = true) ∧
  (∀ a b c, comp a b = false → comp b a = false → comp b c = false → comp c b = false →
    comp a c = false ∧ comp c a = false)

/-- What the C++ standard promises of `std::sort` when the comparator is a
strict weak ordering: the range is rearranged (a permutation), no element is
ordered before an element in front of it, and, the routine being a template
that touches the elements only through the comparator, its rearrangement
commutes with every map that preserves the comparison results. The relative
order of equivalent elements is left open. -/
def StdSortContract (sort : {α : Type} → (α → α → Bool) → List α → List α) : Prop :=
  (∀ (α : Type) (comp : α → α → Bool) (l : List α), StrictWeakOrder comp →
    (sort comp l).Perm l) ∧
  (∀ (α : Type) (comp : α → α → Bool) (l : List α), StrictWeakOrder comp →
    (sort comp l).Pairwise (fun a b => comp b a = false)) ∧
  (∀ (α β : Type) (f : α → β) (compA : α → α → Bool) (compB : β → β → Bool) (l : List α),
    StrictWeakOrder compB → (∀ a b, compB (f a) (f b) = compA a b) →
    sort compB (l.map f) = (sort compA l).map f)

/-- Insert `x` in front of the first element that `comp` does not order
before it. -/
def orderedInsert {α : Type} (comp : α → α → Bool) (x : α) : List α → List α
  | [] => [x]
  | y :: ys => if comp y x then y :: orderedInsert comp x ys else x :: y :: ys

/-- A sorting routine that meets the contract and keeps equivalent elements
in their input order: insertion sort. -/
def insertionSort {α : Type} (comp : α → α → Bool) : List α → List α
  | [] => []
  | x :: xs => orderedInsert comp x (insertionSort comp xs)

/-- A sorting routine that meets the contract and puts equivalent elements in
the reverse of their input order. -/
def reversingSort {α : Type} (comp : α → α → Bool) (l : List α) : List α :=
  insertionSort comp l.reverse

/-! ## The GNU implementation of `std::sort`

`std::sort` as implemented in libstdc++ (`bits/stl_algo.h`, `bits/stl_heap.h`
of GCC 12), on a vector given as a list and iterators given as positions. The
helper names are those of the library without the leading underscores. Loops
that the library leaves unguarded run at most as many steps as the vector has
elements. -/

namespace GnuSort

/-- The test `comp(v[i], v[j])`. -/
def compAt {α : Type} (comp : α → α → Bool) (v : List α) (i j : Nat) : Bool :=
  match v[i]?, v[j]? with
  | some a, some b => comp a b
  | _, _ => false

/-- The call `std::iter_swap(i, j)`. -/
def iter_swap {α : Type} (v : List α) (i j : Nat) : List α :=
  match v[i]?, v[j]? with
  | some a, some b => (v.set i b).set j a
  | _, _ => v

/-- Swap the median of `v[a]`, `v[b]`, `v[c]` to position `result`. -/
def move_median_to_first {α : Type} (comp : α → α → Bool) (v : List α)
    (result a b c : Nat) : List α :=
  if compAt comp v a b then
    if compAt comp v b c then iter_swap v result b
    else if compAt comp v a c then iter_swap v result c
    else iter_swap v result a
  else if compAt comp v a c then iter_swap v result a
  else if compAt comp v b c then iter_swap v result c
  else iter_swap v result b

/-- The loop `while (comp(first, pivot)) ++first;`. -/
def scanUp {α : Type} (comp : α → α → Bool) (v : List α) (pivot : Nat) : Nat → Nat → Nat
  | 0, first => first
  | steps + 1, first =>
    if compAt comp v first pivot then scanUp comp v pivot steps (first + 1) else first

/-- The loop `while (comp(pivot, last)) --last;`. -/
def scanDown {α : Type} (comp : α → α → Bool) (v : List α) (pivot : Nat) : Nat → Nat → Nat
  | 0, last => last
  | steps + 1, last =>
    if compAt comp v pivot last then scanDown comp v pivot steps (last - 1) else last

/-- The routine `__unguarded_partition(first, last, pivot, comp)`: the cut and
the rearranged vector. -/
def unguarded_partition {α : Type} (comp : α → α → Bool) (pivot : Nat) :
    Nat → List α → Nat → Nat → Nat × List α
  | 0, v, first, _ => (first, v)
  | steps + 1, v, first, last =>
    let first := scanUp comp v pivot v.length first
    let last := last - 1
    let last := scanDown comp v pivot v.length last
    if !(first < last) then (first, v)
    else unguarded_partition comp pivot steps (iter_swap v first last) (first + 1) last

/-- The routine `__unguarded_partition_pivot(first, last, comp)`. -/
def unguarded_partition_pivot {α : Type} (comp : α → α → Bool) (v : List α)
    (first last : Nat) : Nat × List α :=
  let mid := first + (last - first) / 2
  let v := move_median_to_first comp v first (first + 1) mid (last - 1)
  unguarded_partition comp first v.length v (first + 1) last

/-- The routine `__push_heap(first, holeIndex, topIndex, value, comp)`. -/
def push_heap {α : Type} (comp : α → α → Bool) (first topIndex : Nat) (value : α) :
    Nat → List α → Nat → List α
  | 0, v, holeIndex => v.set (first + holeIndex) value
  | steps + 1, v, holeIndex =>
    let parent := (holeIndex - 1) / 2
    if holeIndex > topIndex then
      match v[first + parent]? with
      | some p =>
        if comp p value then push_heap comp first topIndex value steps
          (v.set (first + holeIndex) p) parent
        else v.set (first + holeIndex) value
      | none => v.set (first + holeIndex) value
    else v.set (first + holeIndex) value

/-- The first loop of `__adjust_heap`: move the larger child up while the
hole has two children; the vector and the final hole. -/
def sift_down {α : Type} (comp : α → α → Bool) (first len : Nat) :
    Nat → List α → Nat → List α × Nat
  | 0, v, secondChild => (v, secondChild)
  | steps + 1, v, holeIndex =>
    if holeIndex < (len - 1) / 2 then
      let secondChild := 2 * (holeIndex + 1)
      let secondChild :=
        if compAt comp v (first + secondChild) (first + (secondChild - 1)) then secondChild - 1
        else secondChild
      match v[first + secondChild]? with
      | some x => sift_down comp first len steps (v.set (first + holeIndex) x) secondChild
      | none => (v, holeIndex)
    else (v, holeIndex)

/-- The routine `__adjust_heap(first, holeIndex, len, value, comp)`. -/
def adjust_heap {α : Type} (comp : α → α → Bool) (v : List α) (first holeIndex len : Nat)
    (value : α) : List α :=
  let topIndex := holeIndex
  let (v, secondChild) := sift_down comp first len v.length v holeIndex
  let holeIndex := secondChild
  if len % 2 == 0 && 2 ≤ len && secondChild == (len - 2) / 2 then
    let secondChild := 2 * (secondChild + 1)
    match v[first + (secondChild - 1)]? with
    | some x =>
      push_heap comp first topIndex value v.length (v.set (first + holeIndex) x)
        (secondChild - 1)
    | none => push_heap comp first topIndex value v.length v holeIndex
  else push_heap comp first topIndex value v.length v holeIndex

/-- The routine `__pop_heap(first, last, result, comp)`. -/
def pop_heap {α : Type} (comp : α → α → Bool) (v : List α) (first last result : Nat) :
    List α :=
  match v[result]?, v[first]? with
  | some value, some top => adjust_heap comp (v.set result top) first 0 (last - first) value
  | _, _ => v

/-- The loop of `__make_heap`, from `parent` down to 0. -/
def make_heap_loop {α : Type} (comp : α → α → Bool) (first len : Nat) :
    Nat → List α → List α
  | 0, v =>
    match v[first]? with
    | some value => adjust_heap comp v first 0 len value
    | none => v
  | parent + 1, v =>
    match v[first + (parent + 1)]? with
    | some value =>
      make_heap_loop comp first len parent (adjust_heap comp v first (parent + 1) len value)
    | none => v

/-- The routine `__make_heap(first, last, comp)`. -/
def make_heap {α : Type} (comp : α → α → Bool) (v : List α) (first last : Nat) : List α :=
  if last - first < 2 then v
  else make_heap_loop comp first (last - first) ((last - first - 2) / 2) v

/-- The routine `__sort_heap(first, last, comp)`, as a loop over the number of
elements still in the heap beyond the first. -/
def sort_heap {α : Type} (comp : α → α → Bool) (first : Nat) : Nat → List α → List α
  | 0, v => v
  | rest + 1, v => sort_heap comp first rest (pop_heap comp v first (first + rest + 1)
      (first + rest + 1))

/-- The loop of `__heap_select` over the positions from `i` to `last`. -/
def heap_select_loop {α : Type} (comp : α → α → Bool) (first middle : Nat) :
    Nat → List α → Nat → List α
  | 0, v, _ => v
  | steps + 1, v, i =>
    if compAt comp v i first then
      heap_select_loop comp first middle steps (pop_heap comp v first middle i) (i + 1)
    else heap_select_loop comp first middle steps v (i + 1)

/-- The routine `__partial_sort(first, middle, last, comp)`. -/
def partial_sort {α : Type} (comp : α → α → Bool) (v : List α) (first middle last : Nat) :
    List α :=
  let v := make_heap comp v first middle
  let v := heap_select_loop comp first middle (last - middle) v middle
  sort_heap comp first (middle - first - 1) v

/-- The routine `__introsort_loop(first, last, depth_limit, comp)`. -/
def introsort_loop {α : Type} (comp : α → α → Bool) : Nat → List α → Nat → Nat → List α
  | 0, v, first, last =>
    if last - first > 16 then partial_sort comp v first last last else v
  | depth_limit + 1, v, first, last =>
    if last - first > 16 then
      let (cut, v) := unguarded_partition_pivot comp v first last
      let v := introsort_loop comp depth_limit v cut last
      introsort_loop comp depth_limit v first cut
    else v

/-- The loop of `__unguarded_linear_insert(last, comp)` for the value taken out
of position `last`. -/
def linear_insert_loop {α : Type} (comp : α → α → Bool) (val : α) :
    Nat → List α → Nat → List α
  | 0, v, last => v.set last val
  | steps + 1, v, last =>
    if last = 0 then v.set last val
    else
      match v[last - 1]? with
      | some next =>
        if comp val next then linear_insert_loop comp val steps (v.set last next) (last - 1)
        else v.set last val
      | none => v.set last val

/-- The routine `__unguarded_linear_insert(last, comp)`. -/
def unguarded_linear_insert {α : Type} (comp : α → α → Bool) (v : List α) (last : Nat) :
    List α :=
  match v[last]? with
  | some val => linear_insert_loop comp val v.length v last
  | none => v

/-- The loop of `__insertion_sort(first, last, comp)` over the positions from
`i` on. -/
def insertion_sort_loop {α : Type} (comp : α → α → Bool) (first : Nat) :
    Nat → List α → Nat → List α
  | 0, v, _ => v
  | steps + 1, v, i =>
    if compAt comp v i first then
      match v[i]? with
      | some val =>
        insertion_sort_loop comp first steps
          (v.take first ++ val :: (v.drop first).take (i - first) ++ v.drop (i + 1)) (i + 1)
      | none => v
    else insertion_sort_loop comp first steps (unguarded_linear_insert comp v i) (i + 1)

/-- The routine `__insertion_sort(first, last, comp)`. -/
def insertion_sort {α : Type} (comp : α → α → Bool) (v : List α) (first last : Nat) :
    List α :=
  if first = last then v
  else insertion_sort_loop comp first (last - (first + 1)) v (first + 1)

/-- The routine `__unguarded_insertion_sort(first, last, comp)`, as a loop over the
positions from `i` on. -/
def unguarded_insertion_sort {α : Type} (comp : α → α → Bool) :
    Nat → List α → Nat → List α
  | 0, v, _ => v
  | steps + 1, v, i =>
    unguarded_insertion_sort comp steps (unguarded_linear_insert comp v i) (i + 1)

/-- The routine `__final_insertion_sort(first, last, comp)`. -/
def final_insertion_sort {α : Type} (comp : α → α → Bool) (v : List α) (first last : Nat) :
    List α :=
  if last - first > 16 then
    let v := insertion_sort comp v first (first + 16)
    unguarded_insertion_sort comp (last - (first + 16)) v (first + 16)
  else insertion_sort comp v first last

/-- The function `__lg(n)`: the position of the highest set bit of `n`, by
halving at most `steps` times. -/
def lg : Nat → Nat → Nat
  | 0, _ => 0
  | steps + 1, n => if n ≤ 1 then 0 else lg steps (n / 2) + 1

/-- The routine `__sort(first, last, comp)` on the whole vector: what
`std::sort(v.begin(), v.end(), comp)` leaves in `v`. -/
def sort {α : Type} (comp : α → α → Bool) (v : List α) : List α :=
  if v.length = 0 then v
  else
    let v := introsort_loop comp (lg v.length v.length * 2) v 0 v.length
    final_insertion_sort comp v 0 v.length

end GnuSort

/-! ## Reference descriptions used in the statements -/

/-- The candidates of a collection with their positions, from position `i`
on. -/
def withKeys {γ : Type} : Nat → List γ → List (Nat × γ)
  | _, [] => []
  | i, c :: cs => (i, c) :: withKeys (i + 1) cs

/-- The records constructed from the candidates of a ParticleFlow collection
whose verdict is true, in input order. -/
def pfSurvivors (isolator : Discriminator) (PFtaus : List PFTau) : List Tau :=
  ((withKeys 0 PFtaus).filter (fun kc => isolator kc.1 == some true)).map
    (fun kc => makePFTau kc.1 kc.2)

/-- The records constructed from the candidates of a Calorimeter collection
whose verdict is true, in input order. -/
def caloSurvivors (isolator : Discriminator) (Calotaus : List CaloTau) : List Tau :=
  ((withKeys 0 Calotaus).filter (fun kc => isolator kc.1 == some true)).map
    (fun kc => makeCaloTau kc.1 kc.2)

/-- The records constructed from the true-verdict candidates of the selected
source of an event (ParticleFlow when it resolves, else Calorimeter when it
resolves, else none), in input order. -/
def survivors (iEvent : Event) : List Tau :=
  match iEvent.PFtaus, iEvent.PFtauIsolator with
  | some PFtaus, some PFtauIsolator => pfSurvivors PFtauIsolator PFtaus
  | _, _ =>
    match iEvent.Calotaus, iEvent.CalotauIsolator with
    | some Calotaus, some CalotauIsolator => caloSurvivors CalotauIsolator Calotaus
    | _, _ => []

/-- Whether a reference points at a candidate of the selected source of an
event: a position of the ParticleFlow collection when that source resolves, a
position of the Calorimeter collection when only that source resolves. -/
def inSelectedSource (iEvent : Event) : TauRef → Bool
  | .pf key => hasPFtaus iEvent && decide (key < (iEvent.PFtaus.getD []).length)
  | .calo key =>
    !hasPFtaus iEvent && hasCalotaus iEvent && decide (key < (iEvent.Calotaus.getD []).length)

/-- The isolation verdict stored for a reference; `none` when there is no
entry. -/
def verdictOf (iEvent : Event) : TauRef → Option Bool
  | .pf key =>
    match iEvent.PFtauIsolator with
    | some PFtauIsolator => PFtauIsolator key
    | none => none
  | .calo key =>
    match iEvent.CalotauIsolator with
    | some CalotauIsolator => CalotauIsolator key
    | none => none

/-- Whether the jet cast of lines 111 / 128 yields null for the candidate a
reference points at. -/
def jetCastFails (iEvent : Event) : TauRef → Bool
  | .pf key =>
    match (iEvent.PFtaus.getD [])[key]? with
    | some thePFTau => thePFTau.jet.toPFJet.isNone
    | none => false
  | .calo key =>
    match (iEvent.Calotaus.getD [])[key]? with
    | some theCaloTau => theCaloTau.jet.toCaloJet.isNone
    | none => false

/-- Every candidate of the selected source of an event has a verdict entry. -/
def allVerdictsPresent (iEvent : Event) : Prop :=
  ∀ r, inSelectedSource iEvent r = true → verdictOf iEvent r ≠ none

/-- The number of candidates of the selected source whose verdict is true. -/
def trueVerdictCount (iEvent : Event) : Nat :=
  if hasPFtaus iEvent then
    ((List.range (iEvent.PFtaus.getD []).length).filter
      (fun key => verdictOf iEvent (.pf key) == some true)).length
  else if hasCalotaus iEvent then
    ((List.range (iEvent.Calotaus.getD []).length).filter
      (fun key => verdictOf iEvent (.calo key) == some true)).length
  else 0

/-- The enrichment fields of a record put back to their defaults. -/
def clearEnrichment (t : Tau) : Tau :=
  { t with genLepton := none, resolution := [], lrValues := [] }

/-! ## Sample data -/

/-- Sample externals: insertion sort, `pt` read off `px` (exact for momenta
along the x axis), a `DeltaR` that is the distance of the `pz` components,
and calculators that attach one value. -/
def sampleExternal : External :=
  { stdSort := fun comp l => insertionSort comp l
    pt := fun v => |v.px|
    deltaR := fun a b => |a.pz - b.pz|
    theResoCalc := fun t => [t.base.p4.e]
    calcLikelihood := fun t _ => [t.emEnergyFraction] }

/-- Sample externals whose sort reverses ties. -/
def reversingExternal : External :=
  { sampleExternal with stdSort := fun comp l => reversingSort comp l }

/-- Sample externals whose sort is the GNU implementation. -/
def gnuExternal : External :=
  { sampleExternal with stdSort := fun comp l => GnuSort.sort comp l }

/-! ## Sample events -/

/-- A ParticleFlow tau of pt 30 whose jet is not a `PFJet`. -/
def samplePFTauA : PFTau :=
  { base := ⟨⟨30, 0, 1, 40⟩⟩, jet := .other, leadTrackP := 10 }

/-- A ParticleFlow tau of pt 30 with a `PFJet`. -/
def samplePFTauB : PFTau :=
  { base := ⟨⟨30, 0, 8, 50⟩⟩, jet := .pfJet ⟨1/4, 1/2⟩, leadTrackP := 10 }

/-- A ParticleFlow tau of pt 50 with a `PFJet`. -/
def samplePFTauC : PFTau :=
  { base := ⟨⟨50, 0, 2, 60⟩⟩, jet := .pfJet ⟨1/4, 1/4⟩, leadTrackP := 20 }

/-- A Calorimeter tau of pt 45 whose jet is not a `CaloJet`. -/
def sampleCaloTau : CaloTau :=
  { base := ⟨⟨45, 0, 3, 70⟩⟩, jet := .other, leadTrackP := 5 }

/-- A generated tau (type code 15, status 2) at `pz = 2`. -/
def sampleGenTau : GenParticleCandidate :=
  { charge := -1, p4 := ⟨20, 0, 2, 25⟩, vertex := ⟨0, 0, 0⟩, pdgId := 15, status := 2,
    integerCharge := true }

/-- A generated muon (type code 13) at `pz = 1`. -/
def sampleGenMuon : GenParticleCandidate :=
  { charge := -1, p4 := ⟨20, 0, 1, 25⟩, vertex := ⟨0, 0, 0⟩, pdgId := 13, status := 1,
    integerCharge := true }

/-- An event with no tau source and no generated particles. -/
def noSourceEvent : Event :=
  { PFtaus := none, PFtauIsolator := none, Calotaus := none, CalotauIsolator := none,
    particles := none }

/-- An event with a ParticleFlow source only: three taus, the second one
failing isolation, and two generated particles. -/
def pfEvent : Event :=
  { PFtaus := some [samplePFTauA, samplePFTauB, samplePFTauC]
    PFtauIsolator := some (fun i => [true, false, true][i]?)
    Calotaus := none
    CalotauIsolator := none
    particles := some [sampleGenMuon, sampleGenTau] }

/-- An event with a Calorimeter source only. -/
def caloEvent : Event :=
  { PFtaus := none
    PFtauIsolator := none
    Calotaus := some [sampleCaloTau]
    CalotauIsolator := some (fun i => [true][i]?)
    particles := none }

/-- An event in which both sources resolve. -/
def bothEvent : Event :=
  { PFtaus := some [samplePFTauC]
    PFtauIsolator := some (fun i => [true][i]?)
    Calotaus := some [sampleCaloTau]
    CalotauIsolator := some (fun i => [true][i]?)
    particles := none }

/-- An event whose discriminator has no entry for the second of two taus. -/
def missingVerdictEvent : Event :=
  { PFtaus := some [samplePFTauA, samplePFTauB]
    PFtauIsolator := some (fun i => [true][i]?)
    Calotaus := none
    CalotauIsolator := none
    particles := none }

/-- An event with two isolated taus of equal pt. -/
def tieEvent : Event :=
  { PFtaus := some [samplePFTauA, samplePFTauB]
    PFtauIsolator := some (fun i => [true, true][i]?)
    Calotaus := none
    CalotauIsolator := none
    particles := none }

/-- A ParticleFlow tau along the x axis with the given pt, whose jet is not a
`PFJet`. -/
def tauOfPt (pt : Rat) : PFTau :=
  { base := ⟨⟨pt, 0, 0, pt⟩⟩, jet := .other, leadTrackP := pt }

/-- An event with seventeen isolated taus; the second and the third have the
same pt, every other pt occurs once. -/
def seventeenTauEvent : Event :=
  { PFtaus := some ([50, 30, 30, 20, 60, 10, 70, 80, 90, 15, 25, 35, 45, 55, 65, 75, 85].map
      tauOfPt)
    PFtauIsolator := some (fun _ => some true)
    Calotaus := none
    CalotauIsolator := none
    particles := none }

/-- A generated tau at `pz = 5 - 2^-30`, a `double` that is not a `float`. -/
def nearGenTau : GenParticleCandidate :=
  { charge := -1, p4 := ⟨20, 0, 5368709119 / 1073741824, 25⟩, vertex := ⟨0, 0, 0⟩,
    pdgId := 15, status := 2, integerCharge := true }

/-- A generated tau at `pz = 1 + 2^-30`, a `double` that is not a `float`. -/
def fartherGenTau : GenParticleCandidate :=
  { charge := -1, p4 := ⟨20, 0, 1073741825 / 1073741824, 25⟩, vertex := ⟨0, 0, 0⟩,
    pdgId := 15, status := 2, integerCharge := true }

/-- A generated tau at `pz = 1`. -/
def closeGenTau : GenParticleCandidate :=
  { charge := 1, p4 := ⟨20, 0, 1, 25⟩, vertex := ⟨0, 0, 0⟩, pdgId := -15, status := 2,
    integerCharge := true }

/-- An event with one isolated tau at `pz = 0` and one generated tau at
distance `5 - 2^-30` from it. -/
def nearMissEvent : Event :=
  { PFtaus := some [tauOfPt 40]
    PFtauIsolator := some (fun _ => some true)
    Calotaus := none
    CalotauIsolator := none
    particles := some [nearGenTau] }

/-- An event with one isolated tau at `pz = 0` and two generated taus, the
first at distance `1 + 2^-30` and the second at distance `1` from it. -/
def floatTieEvent : Event :=
  { PFtaus := some [tauOfPt 40]
    PFtauIsolator := some (fun _ => some true)
    Calotaus := none
    CalotauIsolator := none
    particles := some [fartherGenTau, closeGenTau] }

/-- Generator matching on, the calculators off. -/
def matchOnly : Config := { addGenMatch := true, addResolutions := false, addLRValues := false }

/-- All enrichment switched off. -/
def allOff : Config := { addGenMatch := false, addResolutions := false, addLRValues := false }

/-- All enrichment switched on. -/
def allOn : Config := { addGenMatch := true, addResolutions := true, addLRValues := true }


/-! ## Sorting lemmas -/

theorem StrictWeakOrder.asymm {α : Type} {comp : α → α → Bool} (h : StrictWeakOrder comp)
    {a b : α} (hab : comp a b = true) : comp b a = false := by
  cases hba : comp b a with
  | false => rfl
  | true =>
    have h1 := h.2.1 a b a hab hba
    rw [h.1 a] at h1
    exact absurd h1 (by decide)

theorem StrictWeakOrder.negTrans {α : Type} {comp : α → α → Bool} (h : StrictWeakOrder comp)
    {a b c : α} (hab : comp a b = false) (hbc : comp b c = false) : comp a c = false := by
  cases hac : comp a c with
  | false => rfl
  | true =>
    cases hba : comp b a with
    | true =>
      have := h.2.1 b a c hba hac
      rw [hbc] at this
      exact absurd this (by decide)
    | false =>
      cases hcb : comp c b with
      | true =>
        have := h.2.1 a c b hac hcb
        rw [hab] at this
        exact absurd this (by decide)
      | false =>
        have := (h.2.2 a b c hab hba hbc hcb).1
        rw [hac] at this
        exact absurd this (by decide)

theorem orderedInsert_perm {α : Type} (comp : α → α → Bool) (x : α) :
    ∀ l : List α, (orderedInsert comp x l).Perm (x :: l)
  | [] => List.Perm.refl _
  | y :: ys => by
    unfold orderedInsert
    split
    · exact ((orderedInsert_perm comp x ys).cons y).trans (List.Perm.swap x y ys)
    · exact List.Perm.refl _

theorem insertionSort_perm {α : Type} (comp : α → α → Bool) :
    ∀ l : List α, (insertionSort comp l).Perm l
  | [] => List.Perm.refl _
  | x :: xs => by
    unfold insertionSort
    exact (orderedInsert_perm comp x _).trans ((insertionSort_perm comp xs).cons x)

theorem orderedInsert_sorted {α : Type} {comp : α → α → Bool} (h : StrictWeakOrder comp)
    (x : α) : ∀ l : List α, l.Pairwise (fun a b => comp b a = false) →
      (orderedInsert comp x l).Pairwise (fun a b => comp b a = false)
  | [], _ => by simp [orderedInsert]
  | y :: ys, hl => by
    rw [List.pairwise_cons] at hl
    unfold orderedInsert
    split
    · rename_i hyx
      rw [List.pairwise_cons]
      refine ⟨?_, orderedInsert_sorted h x ys hl.2⟩
      intro z hz
      rcases List.mem_cons.mp ((orderedInsert_perm comp x ys).mem_iff.mp hz) with hzx | hzys
      · rw [hzx]
        exact h.asymm hyx
      · exact hl.1 z hzys
    · rename_i hyx
      have hyx' : comp y x = false := by simpa using hyx
      rw [List.pairwise_cons]
      refine ⟨?_, List.pairwise_cons.mpr hl⟩
      intro z hz
      rcases List.mem_cons.mp hz with h1 | h1
      · cases h1; exact hyx'
      · exact h.negTrans (hl.1 z h1) hyx'

theorem insertionSort_sorted {α : Type} {comp : α → α → Bool} (h : StrictWeakOrder comp) :
    ∀ l : List α, (insertionSort comp l).Pairwise (fun a b => comp b a = false)
  | [] => List.Pairwise.nil
  | x :: xs => by
    unfold insertionSort
    exact orderedInsert_sorted h x _ (insertionSort_sorted h xs)

theorem orderedInsert_map {α β : Type} (f : α → β) (compA : α → α → Bool)
    (compB : β → β → Bool) (hf : ∀ a b, compB (f a) (f b) = compA a b) (x : α) :
    ∀ l : List α, orderedInsert compB (f x) (l.map f) = (orderedInsert compA x l).map f
  | [] => rfl
  | y :: ys => by
    simp only [List.map_cons, orderedInsert, hf]
    split
    · simp [orderedInsert_map f compA compB hf x ys]
    · simp

theorem insertionSort_map {α β : Type} (f : α → β) (compA : α → α → Bool)
    (compB : β → β → Bool) (hf : ∀ a b, compB (f a) (f b) = compA a b) :
    ∀ l : List α, insertionSort compB (l.map f) = (insertionSort compA l).map f
  | [] => rfl
  | x :: xs => by
    simp only [List.map_cons, insertionSort]
    rw [insertionSort_map f compA compB hf xs, orderedInsert_map f compA compB hf]

theorem insertionSort_contract :
    StdSortContract (fun {α : Type} (comp : α → α → Bool) l => insertionSort comp l) :=
  ⟨fun _ comp l _ => insertionSort_perm comp l,
   fun _ _ l h => insertionSort_sorted h l,
   fun _ _ f compA compB l _ hf => insertionSort_map f compA compB hf l⟩

theorem reversingSort_contract :
    StdSortContract (fun {α : Type} (comp : α → α → Bool) l => reversingSort comp l) :=
  ⟨fun _ comp l _ => (insertionSort_perm comp l.reverse).trans (List.reverse_perm l),
   fun _ _ l h => insertionSort_sorted h l.reverse,
   fun _ _ f compA compB l _ hf => by
     simp only [reversingSort, ← List.map_reverse]
     exact insertionSort_map f compA compB hf l.reverse⟩

theorem pTTauComparator_strictWeakOrder (X : External) :
    StrictWeakOrder (pTTauComparator X) := by
  refine ⟨?_, ?_, ?_⟩
  · intro a
    simp [pTTauComparator]
  · intro a b c hab hbc
    simp only [pTTauComparator, decide_eq_true_eq, gt_iff_lt] at *
    exact lt_trans hbc hab
  · intro a b c hab hba hbc hcb
    simp only [pTTauComparator, decide_eq_false_iff_not, gt_iff_lt, not_lt] at *
    exact ⟨le_trans hab hbc, le_trans hcb hba⟩


theorem GnuSort.lg_eq_log2_of_lt : ∀ (steps n : Nat), n < 2 ^ steps →
    GnuSort.lg steps n = Nat.log2 n
  | 0, n, h => by
    have hn : n = 0 := by simpa using h
    subst hn
    rw [Nat.log2]
    simp [GnuSort.lg]
  | steps + 1, n, h => by
    rw [Nat.log2]
    by_cases h1 : n ≤ 1
    · have h2 : ¬ n ≥ 2 := by omega
      simp [GnuSort.lg, h1, h2]
    · have h2 : n ≥ 2 := by omega
      have h3 : n / 2 < 2 ^ steps := by
        rw [Nat.div_lt_iff_lt_mul (by decide)]
        rw [Nat.pow_succ] at h
        exact h
      simp [GnuSort.lg, h1, h2, GnuSort.lg_eq_log2_of_lt steps (n / 2) h3]

theorem GnuSort.lg_eq_log2 (n : Nat) : GnuSort.lg n n = Nat.log2 n :=
  GnuSort.lg_eq_log2_of_lt n n (Nat.lt_two_pow n)


/-! ## The construction loops -/

theorem pfLoop_ok (isolator : Discriminator) :
    ∀ (l : List PFTau) (i : Nat) (acc : List Tau),
      (∀ j, j < l.length → isolator (i + j) ≠ none) →
      pfLoop isolator i l acc = .ok (acc ++
        ((withKeys i l).filter (fun kc => isolator kc.1 == some true)).map
          (fun kc => makePFTau kc.1 kc.2))
  | [], i, acc, _ => by simp [pfLoop, withKeys]
  | c :: cs, i, acc, h => by
    have h0 := h 0 (by simp)
    have hrest : ∀ j, j < cs.length → isolator (i + 1 + j) ≠ none := by
      intro j hj
      have := h (j + 1) (by simpa using hj)
      rwa [show i + (j + 1) = i + 1 + j by omega] at this
    rw [Nat.add_zero] at h0
    cases hv : isolator i with
    | none => exact absurd hv h0
    | some disc =>
      cases disc with
      | false => simp [pfLoop, withKeys, hv, pfLoop_ok isolator cs (i + 1) acc hrest]
      | true =>
        simp [pfLoop, withKeys, hv,
          pfLoop_ok isolator cs (i + 1) (acc ++ [makePFTau i c]) hrest]

theorem pfLoop_error (isolator : Discriminator) :
    ∀ (l : List PFTau) (i : Nat) (acc : List Tau),
      (∃ j, j < l.length ∧ isolator (i + j) = none) →
      pfLoop isolator i l acc = .error .invalidReference
  | [], _, _, h => by
    obtain ⟨j, hj, _⟩ := h
    simp at hj
  | c :: cs, i, acc, h => by
    cases hv : isolator i with
    | none => simp [pfLoop, hv]
    | some disc =>
      have hrest : ∃ j, j < cs.length ∧ isolator (i + 1 + j) = none := by
        obtain ⟨j, hj, hn⟩ := h
        cases j with
        | zero => rw [Nat.add_zero, hv] at hn; cases hn
        | succ k =>
          refine ⟨k, by simpa using hj, ?_⟩
          rwa [show i + 1 + k = i + (k + 1) by omega]
      cases disc with
      | false => simp [pfLoop, hv, pfLoop_error isolator cs (i + 1) acc hrest]
      | true =>
        simp [pfLoop, hv, pfLoop_error isolator cs (i + 1) (acc ++ [makePFTau i c]) hrest]

theorem caloLoop_ok (isolator : Discriminator) :
    ∀ (l : List CaloTau) (i : Nat) (acc : List Tau),
      (∀ j, j < l.length → isolator (i + j) ≠ none) →
      caloLoop isolator i l acc = .ok (acc ++
        ((withKeys i l).filter (fun kc => isolator kc.1 == some true)).map
          (fun kc => makeCaloTau kc.1 kc.2))
  | [], i, acc, _ => by simp [caloLoop, withKeys]
  | c :: cs, i, acc, h => by
    have h0 := h 0 (by simp)
    have hrest : ∀ j, j < cs.length → isolator (i + 1 + j) ≠ none := by
      intro j hj
      have := h (j + 1) (by simpa using hj)
      rwa [show i + (j + 1) = i + 1 + j by omega] at this
    rw [Nat.add_zero] at h0
    cases hv : isolator i with
    | none => exact absurd hv h0
    | some disc =>
      cases disc with
      | false => simp [caloLoop, withKeys, hv, caloLoop_ok isolator cs (i + 1) acc hrest]
      | true =>
        simp [caloLoop, withKeys, hv,
          caloLoop_ok isolator cs (i + 1) (acc ++ [makeCaloTau i c]) hrest]

theorem caloLoop_error (isolator : Discriminator) :
    ∀ (l : List CaloTau) (i : Nat) (acc : List Tau),
      (∃ j, j < l.length ∧ isolator (i + j) = none) →
      caloLoop isolator i l acc = .error .invalidReference
  | [], _, _, h => by
    obtain ⟨j, hj, _⟩ := h
    simp at hj
  | c :: cs, i, acc, h => by
    cases hv : isolator i with
    | none => simp [caloLoop, hv]
    | some disc =>
      have hrest : ∃ j, j < cs.length ∧ isolator (i + 1 + j) = none := by
        obtain ⟨j, hj, hn⟩ := h
        cases j with
        | zero => rw [Nat.add_zero, hv] at hn; cases hn
        | succ k =>
          refine ⟨k, by simpa using hj, ?_⟩
          rwa [show i + 1 + k = i + (k + 1) by omega]
      cases disc with
      | false => simp [caloLoop, hv, caloLoop_error isolator cs (i + 1) acc hrest]
      | true =>
        simp [caloLoop, hv, caloLoop_error isolator cs (i + 1) (acc ++ [makeCaloTau i c]) hrest]

theorem mem_withKeys {γ : Type} :
    ∀ (l : List γ) (i k : Nat) (c : γ),
      (k, c) ∈ withKeys i l ↔ ∃ j, k = i + j ∧ l[j]? = some c
  | [], i, k, c => by simp [withKeys]
  | x :: xs, i, k, c => by
    simp only [withKeys, List.mem_cons, Prod.mk.injEq, mem_withKeys xs (i + 1) k c]
    constructor
    · rintro (⟨rfl, rfl⟩ | ⟨j, rfl, hj⟩)
      · exact ⟨0, rfl, by simp⟩
      · exact ⟨j + 1, by omega, by simpa using hj⟩
    · rintro ⟨j, rfl, hj⟩
      cases j with
      | zero =>
        left
        simp at hj
        exact ⟨rfl, hj.symm⟩
      | succ n =>
        right
        exact ⟨n, by omega, by simpa using hj⟩

theorem withKeys_map_fst {γ : Type} :
    ∀ (l : List γ) (i : Nat), (withKeys i l).map Prod.fst = List.range' i l.length
  | [], _ => rfl
  | _ :: xs, i => by
    simp [withKeys, withKeys_map_fst xs (i + 1), List.range'_succ]


/-! ## Constructed records -/

@[simp] theorem makePFTau_origin (k : Nat) (c : PFTau) : (makePFTau k c).origin = .pf k := by
  unfold makePFTau
  cases c.jet.toPFJet <;> rfl

@[simp] theorem makeCaloTau_origin (k : Nat) (c : CaloTau) :
    (makeCaloTau k c).origin = .calo k := by
  unfold makeCaloTau
  cases c.jet.toCaloJet <;> rfl

theorem makePFTau_clear (k : Nat) (c : PFTau) :
    clearEnrichment (makePFTau k c) = makePFTau k c := by
  unfold makePFTau
  cases c.jet.toPFJet <;> rfl

theorem makeCaloTau_clear (k : Nat) (c : CaloTau) :
    clearEnrichment (makeCaloTau k c) = makeCaloTau k c := by
  unfold makeCaloTau
  cases c.jet.toCaloJet <;> rfl

theorem makePFTau_castFails (k : Nat) (c : PFTau) (h : c.jet.toPFJet = none) :
    makePFTau k c = Tau.ofCandidate (.pf k) c.base := by
  simp [makePFTau, h]

theorem makeCaloTau_castFails (k : Nat) (c : CaloTau) (h : c.jet.toCaloJet = none) :
    makeCaloTau k c = Tau.ofCandidate (.calo k) c.base := by
  simp [makeCaloTau, h]

theorem pfSurvivors_origin (isolator : Discriminator) (l : List PFTau) :
    (pfSurvivors isolator l).map Tau.origin =
      ((List.range l.length).filter (fun k => isolator k == some true)).map TauRef.pf := by
  have h1 : (pfSurvivors isolator l).map Tau.origin =
      (((withKeys 0 l).filter ((fun k => isolator k == some true) ∘ Prod.fst)).map
        Prod.fst).map TauRef.pf := by
    simp [pfSurvivors, List.map_map, Function.comp_def]
  rw [h1, ← List.filter_map, withKeys_map_fst, List.range_eq_range']

theorem caloSurvivors_origin (isolator : Discriminator) (l : List CaloTau) :
    (caloSurvivors isolator l).map Tau.origin =
      ((List.range l.length).filter (fun k => isolator k == some true)).map TauRef.calo := by
  have h1 : (caloSurvivors isolator l).map Tau.origin =
      (((withKeys 0 l).filter ((fun k => isolator k == some true) ∘ Prod.fst)).map
        Prod.fst).map TauRef.calo := by
    simp [caloSurvivors, List.map_map, Function.comp_def]
  rw [h1, ← List.filter_map, withKeys_map_fst, List.range_eq_range']

theorem survivors_origin_nodup (iEvent : Event) :
    ((survivors iEvent).map Tau.origin).Nodup := by
  have hpf : ∀ (iso : Discriminator) (n : Nat),
      (((List.range n).filter (fun k => iso k == some true)).map TauRef.pf).Nodup :=
    fun iso n => ((List.nodup_range n).filter _).map (fun a b h => by cases h; rfl)
  have hcalo : ∀ (iso : Discriminator) (n : Nat),
      (((List.range n).filter (fun k => iso k == some true)).map TauRef.calo).Nodup :=
    fun iso n => ((List.nodup_range n).filter _).map (fun a b h => by cases h; rfl)
  rcases iEvent with ⟨pf, pfi, calo, caloi, parts⟩
  cases pf <;> cases pfi <;> cases calo <;> cases caloi <;>
    simp only [survivors, pfSurvivors_origin, caloSurvivors_origin, List.map_nil,
      List.nodup_nil, hpf, hcalo]

theorem mem_survivors_origin (iEvent : Event) (r : TauRef) :
    r ∈ (survivors iEvent).map Tau.origin ↔
      (inSelectedSource iEvent r = true ∧ verdictOf iEvent r = some true) := by
  rcases iEvent with ⟨pf, pfi, calo, caloi, parts⟩
  cases pf <;> cases pfi <;> cases calo <;> cases caloi <;> cases r <;>
    simp [survivors, pfSurvivors_origin, caloSurvivors_origin, inSelectedSource, verdictOf,
      hasPFtaus, hasCalotaus]

theorem survivors_length (iEvent : Event) :
    (survivors iEvent).length = trueVerdictCount iEvent := by
  rw [← List.length_map (survivors iEvent) Tau.origin]
  rcases iEvent with ⟨pf, pfi, calo, caloi, parts⟩
  cases pf <;> cases pfi <;> cases calo <;> cases caloi <;>
    simp [survivors, pfSurvivors_origin, caloSurvivors_origin, trueVerdictCount, verdictOf,
      hasPFtaus, hasCalotaus]

theorem survivors_clear (iEvent : Event) :
    ∀ t ∈ survivors iEvent, clearEnrichment t = t := by
  rcases iEvent with ⟨pf, pfi, calo, caloi, parts⟩
  intro t ht
  cases pf <;> cases pfi <;> cases calo <;> cases caloi <;>
    simp only [survivors, pfSurvivors, caloSurvivors, List.mem_map, List.not_mem_nil] at ht
  all_goals
    obtain ⟨kc, _, rfl⟩ := ht
    first
      | exact makePFTau_clear _ _
      | exact makeCaloTau_clear _ _

theorem survivors_castFails (iEvent : Event) :
    ∀ t ∈ survivors iEvent, jetCastFails iEvent t.origin = true →
      t = Tau.ofCandidate t.origin t.base := by
  rcases iEvent with ⟨pf, pfi, calo, caloi, parts⟩
  intro t ht
  cases pf <;> cases pfi <;> cases calo <;> cases caloi <;>
    simp only [survivors, pfSurvivors, caloSurvivors, List.mem_map, List.not_mem_nil,
      List.mem_filter] at ht
  all_goals
    obtain ⟨⟨k, c⟩, ⟨hk, _⟩, rfl⟩ := ht
    obtain ⟨j, hj, hc⟩ := (mem_withKeys _ 0 k c).mp hk
    rw [Nat.zero_add] at hj
    subst hj
    intro hf
    first
      | (simp only [makePFTau_origin, jetCastFails, Option.getD_some, hc,
          Option.isNone_iff_eq_none] at hf
         rw [makePFTau_castFails _ _ hf]; rfl)
      | (simp only [makeCaloTau_origin, jetCastFails, Option.getD_some, hc,
          Option.isNone_iff_eq_none] at hf
         rw [makeCaloTau_castFails _ _ hf]; rfl)

/-! ## Phase outcomes -/

theorem buildTaus_ok (iEvent : Event) (h : allVerdictsPresent iEvent) :
    buildTaus iEvent = .ok (survivors iEvent) := by
  rcases iEvent with ⟨pf, pfi, calo, caloi, parts⟩
  have hpf : ∀ (l : List PFTau) (iso : Discriminator), pf = some l → pfi = some iso →
      ∀ j, j < l.length → iso (0 + j) ≠ none := by
    intro l iso h1 h2 j hj
    subst h1 h2
    have := h (.pf j) (by simp [inSelectedSource, hasPFtaus, hj])
    simpa [verdictOf] using this
  have hcalo : ∀ (l : List CaloTau) (iso : Discriminator), (pf = none ∨ pfi = none) →
      calo = some l → caloi = some iso → ∀ j, j < l.length → iso (0 + j) ≠ none := by
    intro l iso h0 h1 h2 j hj
    subst h1 h2
    have := h (.calo j) (by
      rcases h0 with h0 | h0
      · subst h0
        simp [inSelectedSource, hasPFtaus, hasCalotaus, hj]
      · subst h0
        cases pf <;> simp [inSelectedSource, hasPFtaus, hasCalotaus, hj])
    simpa [verdictOf] using this
  cases pf <;> cases pfi <;> cases calo <;> cases caloi <;>
    simp only [buildTaus, survivors, pfSurvivors, caloSurvivors]
  all_goals
    first
      | (rw [pfLoop_ok _ _ _ _ (hpf _ _ rfl rfl)]; simp)
      | (rw [caloLoop_ok _ _ _ _ (hcalo _ _ (Or.inl rfl) rfl rfl)]; simp)
      | (rw [caloLoop_ok _ _ _ _ (hcalo _ _ (Or.inr rfl) rfl rfl)]; simp)

theorem buildTaus_error (iEvent : Event) (h : ¬ allVerdictsPresent iEvent) :
    buildTaus iEvent = .error .invalidReference := by
  unfold allVerdictsPresent at h
  push_neg at h
  obtain ⟨r, hsel, hv⟩ := h
  rcases iEvent with ⟨pf, pfi, calo, caloi, parts⟩
  cases pf <;> cases pfi <;> cases calo <;> cases caloi <;> cases r <;>
    simp [inSelectedSource, hasPFtaus, hasCalotaus, verdictOf] at hsel hv <;>
    simp only [buildTaus]
  all_goals
    first
      | exact pfLoop_error _ _ _ _ ⟨_, hsel, by rw [Nat.zero_add]; exact hv⟩
      | exact caloLoop_error _ _ _ _ ⟨_, hsel, by rw [Nat.zero_add]; exact hv⟩


/-! ## The enrichment pass -/

@[simp] theorem enrich_origin (X : External) (cfg : Config) (iEvent : Event)
    (ps : List GenParticleCandidate) (t : Tau) : (enrich X cfg iEvent ps t).origin = t.origin := by
  unfold enrich
  cases cfg.addGenMatch <;> cases cfg.addResolutions <;> cases cfg.addLRValues <;> rfl

@[simp] theorem enrich_base (X : External) (cfg : Config) (iEvent : Event)
    (ps : List GenParticleCandidate) (t : Tau) : (enrich X cfg iEvent ps t).base = t.base := by
  unfold enrich
  cases cfg.addGenMatch <;> cases cfg.addResolutions <;> cases cfg.addLRValues <;> rfl

@[simp] theorem enrich_emEnergyFraction (X : External) (cfg : Config) (iEvent : Event)
    (ps : List GenParticleCandidate) (t : Tau) :
    (enrich X cfg iEvent ps t).emEnergyFraction = t.emEnergyFraction := by
  unfold enrich
  cases cfg.addGenMatch <;> cases cfg.addResolutions <;> cases cfg.addLRValues <;> rfl

@[simp] theorem enrich_eOverP (X : External) (cfg : Config) (iEvent : Event)
    (ps : List GenParticleCandidate) (t : Tau) :
    (enrich X cfg iEvent ps t).eOverP = t.eOverP := by
  unfold enrich
  cases cfg.addGenMatch <;> cases cfg.addResolutions <;> cases cfg.addLRValues <;> rfl

theorem enrich_clear (X : External) (cfg : Config) (iEvent : Event)
    (ps : List GenParticleCandidate) (t : Tau) :
    clearEnrichment (enrich X cfg iEvent ps t) = clearEnrichment t := by
  unfold enrich
  cases cfg.addGenMatch <;> cases cfg.addResolutions <;> cases cfg.addLRValues <;> rfl

theorem enrich_genLepton (X : External) (cfg : Config) (iEvent : Event)
    (ps : List GenParticleCandidate) (t : Tau) (h : cfg.addGenMatch = true) :
    (enrich X cfg iEvent ps t).genLepton = some (bestGenTau X ps t) := by
  unfold enrich
  rw [h]
  cases cfg.addResolutions <;> cases cfg.addLRValues <;> rfl

theorem enrich_allOff (X : External) (iEvent : Event) (ps : List GenParticleCandidate)
    (t : Tau) : enrich X ⟨false, false, false⟩ iEvent ps t = t := rfl

theorem pTTauComparator_enrich (X : External) (cfg : Config) (iEvent : Event)
    (ps : List GenParticleCandidate) (a b : Tau) :
    pTTauComparator X (enrich X cfg iEvent ps a) (enrich X cfg iEvent ps b) =
      pTTauComparator X a b := by
  simp [pTTauComparator]

/-! ## Narrowing lemmas -/

theorem ilog2_eq_log2_of_lt : ∀ (steps n : Nat), n < 2 ^ steps → ilog2 steps n = Nat.log2 n
  | 0, n, h => by
    have hn : n = 0 := by simpa using h
    subst hn
    rw [Nat.log2]
    simp [ilog2]
  | steps + 1, n, h => by
    rw [Nat.log2]
    by_cases h1 : n ≤ 1
    · have h2 : ¬ n ≥ 2 := by omega
      simp [ilog2, h1, h2]
    · have h2 : n ≥ 2 := by omega
      have h3 : n / 2 < 2 ^ steps := by
        rw [Nat.div_lt_iff_lt_mul (by decide)]
        rw [Nat.pow_succ] at h
        exact h
      simp [ilog2, h1, h2, ilog2_eq_log2_of_lt steps (n / 2) h3]

theorem ilog2_eq_log2 (n : Nat) : ilog2 n n = Nat.log2 n :=
  ilog2_eq_log2_of_lt n n (Nat.lt_two_pow n)

theorem binade_bounds (a : Rat) (ha : 0 < a) :
    (2 : Rat) ^ binade a ≤ a ∧ a < (2 : Rat) ^ (binade a + 1) := by
  have hnum : 0 < a.num := Rat.num_pos.mpr ha
  have hp0 : a.num.natAbs ≠ 0 := by
    intro h
    have := Int.natAbs_eq_zero.mp h
    omega
  have hq0 : a.den ≠ 0 := a.den_nz
  have hpq : ((a.num.natAbs : Nat) : Rat) / (a.den : Rat) = a := by
    have h2 : ((a.num.natAbs : Nat) : Rat) = (a.num : Rat) := by
      rw [Nat.cast_natAbs, abs_of_pos hnum]
    rw [h2]
    exact Rat.num_div_den a
  have hpl : ((2 : Rat) ^ (Nat.log2 a.num.natAbs)) ≤ (a.num.natAbs : Rat) := by
    exact_mod_cast Nat.log2_self_le hp0
  have hpu : (a.num.natAbs : Rat) < (2 : Rat) ^ (Nat.log2 a.num.natAbs + 1) := by
    exact_mod_cast (Nat.lt_log2_self (n := a.num.natAbs))
  have hql : ((2 : Rat) ^ (Nat.log2 a.den)) ≤ (a.den : Rat) := by
    exact_mod_cast Nat.log2_self_le hq0
  have hqu : (a.den : Rat) < (2 : Rat) ^ (Nat.log2 a.den + 1) := by
    exact_mod_cast (Nat.lt_log2_self (n := a.den))
  have hqpos : (0 : Rat) < (a.den : Rat) := by exact_mod_cast Nat.pos_of_ne_zero hq0
  have hppos : (0 : Rat) < (a.num.natAbs : Rat) := by exact_mod_cast Nat.pos_of_ne_zero hp0
  have h2 : (2 : Rat) ≠ 0 := by norm_num
  have hlow : (2 : Rat) ^ (((Nat.log2 a.num.natAbs : Nat) : Int) - (Nat.log2 a.den : Nat) - 1) ≤ a := by
    have e : (((Nat.log2 a.num.natAbs : Nat) : Int) - (Nat.log2 a.den : Nat) - 1) =
        ((Nat.log2 a.num.natAbs : Nat) : Int) - ((Nat.log2 a.den + 1 : Nat) : Int) := by
      push_cast
      ring
    rw [e, zpow_sub₀ h2, zpow_natCast, zpow_natCast]
    conv_rhs => rw [← hpq]
    have hd : (0 : Rat) < (2 : Rat) ^ (Nat.log2 a.den + 1) := by positivity
    rw [div_le_div_iff₀ hd hqpos]
    calc (2 : Rat) ^ Nat.log2 a.num.natAbs * (a.den : Rat)
        ≤ (a.num.natAbs : Rat) * (a.den : Rat) :=
          mul_le_mul_of_nonneg_right hpl (le_of_lt hqpos)
      _ ≤ (a.num.natAbs : Rat) * (2 : Rat) ^ (Nat.log2 a.den + 1) :=
          mul_le_mul_of_nonneg_left (le_of_lt hqu) (le_of_lt hppos)
  have hupp : a < (2 : Rat) ^ (((Nat.log2 a.num.natAbs : Nat) : Int) - (Nat.log2 a.den : Nat) + 1) := by
    have e : (((Nat.log2 a.num.natAbs : Nat) : Int) - (Nat.log2 a.den : Nat) + 1) =
        ((Nat.log2 a.num.natAbs + 1 : Nat) : Int) - ((Nat.log2 a.den : Nat) : Int) := by
      push_cast
      ring
    rw [e, zpow_sub₀ h2, zpow_natCast, zpow_natCast]
    conv_lhs => rw [← hpq]
    have hd : (0 : Rat) < (2 : Rat) ^ (Nat.log2 a.den) := by positivity
    rw [div_lt_div_iff₀ hqpos hd]
    calc (a.num.natAbs : Rat) * (2 : Rat) ^ Nat.log2 a.den
        ≤ (a.num.natAbs : Rat) * (a.den : Rat) :=
          mul_le_mul_of_nonneg_left hql (le_of_lt hppos)
      _ < (2 : Rat) ^ (Nat.log2 a.num.natAbs + 1) * (a.den : Rat) :=
          mul_lt_mul_of_pos_right hpu hqpos
  unfold binade
  simp only [ilog2_eq_log2]
  split
  · rename_i hle
    exact ⟨hle, hupp⟩
  · rename_i hnle
    refine ⟨hlow, ?_⟩
    rw [sub_add_cancel]
    exact not_le.mp hnle

theorem floor_le_roundHalfEven (r : Rat) : ⌊r⌋ ≤ roundHalfEven r := by
  unfold roundHalfEven
  simp only
  split
  · exact le_refl _
  · split
    · omega
    · split
      · exact le_refl _
      · omega

theorem five_le_floatOfDouble (x : Rat) (h : 5 ≤ x) : 5 ≤ floatOfDouble x := by
  have hx0 : x ≠ 0 := by
    intro h0
    rw [h0] at h
    norm_num at h
  have hpos : 0 < x := lt_of_lt_of_le (by norm_num) h
  have habs : |x| = x := abs_of_pos hpos
  obtain ⟨hb1, hb2⟩ := binade_bounds x hpos
  have hb : 2 ≤ binade x := by
    by_contra hlt
    have h1 : binade x + 1 ≤ 2 := by omega
    have h2 : (2 : Rat) ^ (binade x + 1) ≤ (2 : Rat) ^ (2 : Int) :=
      zpow_le_zpow_right₀ (by norm_num) h1
    have h3 : (2 : Rat) ^ (2 : Int) = 4 := by norm_num
    linarith
  have hmax : max (binade x) (-126) = binade x := max_eq_left (by omega)
  unfold floatOfDouble
  simp only [hx0, if_false, habs, hmax, hpos, if_true]
  split
  · norm_num
  · have hq : (0 : Rat) < (2 : Rat) ^ (binade x - 23) := zpow_pos (by norm_num) _
    have hfl := floor_le_roundHalfEven (x / (2 : Rat) ^ (binade x - 23))
    have hflq : ((⌊x / (2 : Rat) ^ (binade x - 23)⌋ : Int) : Rat) ≤
        ((roundHalfEven (x / (2 : Rat) ^ (binade x - 23)) : Int) : Rat) := by
      exact_mod_cast hfl
    by_cases hb2' : binade x = 2
    · rw [hb2'] at hq hflq ⊢
      have hqv : (2 : Rat) ^ ((2 : Int) - 23) = 1 / 2097152 := by norm_num
      rw [hqv] at hflq ⊢
      have h1 : ((10485760 : Int) : Rat) ≤ x / (1 / 2097152) := by
        rw [le_div_iff₀ (by norm_num)]
        push_cast
        linarith
      have h2 : (10485760 : Int) ≤ ⌊x / (1 / 2097152 : Rat)⌋ := Int.le_floor.mpr h1
      have h3 : ((10485760 : Int) : Rat) ≤ ((⌊x / (1 / 2097152 : Rat)⌋ : Int) : Rat) := by
        exact_mod_cast h2
      have h4 := le_trans h3 hflq
      push_cast at h4
      linarith
    · have hb3 : 3 ≤ binade x := by omega
      have h8 : (8 : Rat) ≤ (2 : Rat) ^ binade x := by
        have := zpow_le_zpow_right₀ (a := (2 : Rat)) (by norm_num) hb3
        have e : (2 : Rat) ^ (3 : Int) = 8 := by norm_num
        linarith
      have hsplit : (2 : Rat) ^ binade x = (2 : Rat) ^ (23 : Int) * (2 : Rat) ^ (binade x - 23) := by
        rw [← zpow_add₀ (by norm_num)]
        congr 1
        ring
      have h1 : (((2 : Int) ^ 23 : Int) : Rat) ≤ x / (2 : Rat) ^ (binade x - 23) := by
        rw [le_div_iff₀ hq]
        have e : (((2 : Int) ^ 23 : Int) : Rat) = (2 : Rat) ^ (23 : Int) := by norm_num
        rw [e, ← hsplit]
        exact hb1
      have h2 : ((2 : Int) ^ 23 : Int) ≤ ⌊x / (2 : Rat) ^ (binade x - 23)⌋ := Int.le_floor.mpr h1
      have h3 : (((2 : Int) ^ 23 : Int) : Rat) ≤
          ((⌊x / (2 : Rat) ^ (binade x - 23)⌋ : Int) : Rat) := by
        exact_mod_cast h2
      have h4 := le_trans h3 hflq
      have e : (((2 : Int) ^ 23 : Int) : Rat) = (2 : Rat) ^ (23 : Int) := by norm_num
      rw [e] at h4
      have h5 : (2 : Rat) ^ (23 : Int) * (2 : Rat) ^ (binade x - 23) ≤
          ((roundHalfEven (x / (2 : Rat) ^ (binade x - 23)) : Int) : Rat) *
            (2 : Rat) ^ (binade x - 23) :=
        mul_le_mul_of_nonneg_right h4 (le_of_lt hq)
      rw [← hsplit] at h5
      linarith

/-! ## The generator-match scan -/

theorem matchLoop_spec (X : External) (t : Tau) :
    ∀ (l : List GenParticleCandidate) (b : GenParticleCandidate) (bd : Rat),
      ((matchLoop X t l (b, bd) = (b, bd)) ∨
        ((matchLoop X t l (b, bd)).1 ∈ l ∧ isGenTau (matchLoop X t l (b, bd)).1 = true ∧
          (matchLoop X t l (b, bd)).2 = floatOfDouble (X.deltaR (matchLoop X t l (b, bd)).1.p4 t.base.p4) ∧
          (matchLoop X t l (b, bd)).2 < bd)) ∧
      (∀ g ∈ l, isGenTau g = true → (matchLoop X t l (b, bd)).2 ≤ floatOfDouble (X.deltaR g.p4 t.base.p4)) ∧
      (matchLoop X t l (b, bd)).2 ≤ bd
  | [], b, bd => by simp [matchLoop]
  | g :: gs, b, bd => by
    by_cases hg : isGenTau g = true
    · by_cases hlt : floatOfDouble (X.deltaR g.p4 t.base.p4) < bd
      · have ih := matchLoop_spec X t gs g (floatOfDouble (X.deltaR g.p4 t.base.p4))
        have he : matchLoop X t (g :: gs) (b, bd) =
            matchLoop X t gs (g, floatOfDouble (X.deltaR g.p4 t.base.p4)) := by
          simp [matchLoop, hg, hlt]
        rw [he]
        obtain ⟨h1, h2, h3⟩ := ih
        refine ⟨Or.inr ?_, ?_, le_trans h3 (le_of_lt hlt)⟩
        · rcases h1 with h1 | ⟨m1, m2, m3, m4⟩
          · rw [h1]
            exact ⟨List.mem_cons_self _ _, hg, rfl, hlt⟩
          · exact ⟨List.mem_cons_of_mem _ m1, m2, m3, lt_trans m4 hlt⟩
        · intro g' hg' hel
          rcases List.mem_cons.mp hg' with rfl | hin
          · exact h3
          · exact h2 g' hin hel
      · have ih := matchLoop_spec X t gs b bd
        have he : matchLoop X t (g :: gs) (b, bd) = matchLoop X t gs (b, bd) := by
          simp [matchLoop, hg, hlt]
        rw [he]
        obtain ⟨h1, h2, h3⟩ := ih
        refine ⟨?_, ?_, h3⟩
        · rcases h1 with h1 | ⟨m1, m2, m3, m4⟩
          · exact Or.inl h1
          · exact Or.inr ⟨List.mem_cons_of_mem _ m1, m2, m3, m4⟩
        · intro g' hg' hel
          rcases List.mem_cons.mp hg' with rfl | hin
          · exact le_trans h3 (not_lt.mp hlt)
          · exact h2 g' hin hel
    · have ih := matchLoop_spec X t gs b bd
      have he : matchLoop X t (g :: gs) (b, bd) = matchLoop X t gs (b, bd) := by
        simp [matchLoop, hg]
      rw [he]
      obtain ⟨h1, h2, h3⟩ := ih
      refine ⟨?_, ?_, h3⟩
      · rcases h1 with h1 | ⟨m1, m2, m3, m4⟩
        · exact Or.inl h1
        · exact Or.inr ⟨List.mem_cons_of_mem _ m1, m2, m3, m4⟩
      · intro g' hg' hel
        rcases List.mem_cons.mp hg' with rfl | hin
        · exact absurd hel hg
        · exact h2 g' hin hel

theorem bestGenTau_matched (X : External) (ps : List GenParticleCandidate) (t : Tau)
    (h : ∃ g ∈ ps, isGenTau g = true ∧ floatOfDouble (X.deltaR g.p4 t.base.p4) < 5) :
    bestGenTau X ps t ∈ ps ∧ isGenTau (bestGenTau X ps t) = true ∧
      floatOfDouble (X.deltaR (bestGenTau X ps t).p4 t.base.p4) < 5 ∧
      ∀ g ∈ ps, isGenTau g = true →
        floatOfDouble (X.deltaR (bestGenTau X ps t).p4 t.base.p4) ≤
          floatOfDouble (X.deltaR g.p4 t.base.p4) := by
  obtain ⟨g, hgin, hgel, hgd⟩ := h
  obtain ⟨h1, h2, _⟩ := matchLoop_spec X t ps nullGenTau 5
  unfold bestGenTau
  rcases h1 with h1 | ⟨m1, m2, m3, m4⟩
  · have := h2 g hgin hgel
    rw [h1] at this
    exact absurd (lt_of_le_of_lt this hgd) (lt_irrefl _)
  · refine ⟨m1, m2, m3 ▸ m4, ?_⟩
    intro g' hg' hel
    rw [← m3]
    exact h2 g' hg' hel

theorem bestGenTau_unmatched (X : External) (ps : List GenParticleCandidate) (t : Tau)
    (h : ∀ g ∈ ps, isGenTau g = true → 5 ≤ floatOfDouble (X.deltaR g.p4 t.base.p4)) :
    bestGenTau X ps t = nullGenTau := by
  obtain ⟨h1, _, _⟩ := matchLoop_spec X t ps nullGenTau 5
  unfold bestGenTau
  rcases h1 with h1 | ⟨m1, m2, m3, m4⟩
  · rw [h1]
  · have := h _ m1 m2
    rw [← m3] at this
    exact absurd (lt_of_le_of_lt this m4) (lt_irrefl _)

theorem bestGenTau_eligible (X : External) (ps : List GenParticleCandidate) (t : Tau) :
    bestGenTau X ps t = nullGenTau ∨
      (bestGenTau X ps t ∈ ps ∧ isGenTau (bestGenTau X ps t) = true) := by
  obtain ⟨h1, _, _⟩ := matchLoop_spec X t ps nullGenTau 5
  unfold bestGenTau
  rcases h1 with h1 | ⟨m1, m2, _, _⟩
  · left; rw [h1]
  · exact Or.inr ⟨m1, m2⟩

/-! ## The whole call -/

theorem getParticles_ok (cfg : Config) (iEvent : Event)
    (h : cfg.addGenMatch = true → iEvent.particles ≠ none) :
    getParticles cfg iEvent =
      .ok (if cfg.addGenMatch then iEvent.particles.getD [] else []) := by
  unfold getParticles
  cases hg : cfg.addGenMatch with
  | false => rfl
  | true =>
    cases hp : iEvent.particles with
    | none => exact absurd hp (h hg)
    | some ps => rfl

theorem getParticles_error (cfg : Config) (iEvent : Event)
    (h : cfg.addGenMatch = true ∧ iEvent.particles = none) :
    getParticles cfg iEvent = .error .productNotFound := by
  simp [getParticles, h.1, h.2]

theorem produce_completes (X : External) (cfg : Config) (iEvent : Event)
    (hgen : cfg.addGenMatch = true → iEvent.particles ≠ none)
    (hv : allVerdictsPresent iEvent) :
    produce X cfg iEvent =
      { log := sourceDiagnostics iEvent
        put := some (X.stdSort (pTTauComparator X) ((survivors iEvent).map
          (enrich X cfg iEvent (if cfg.addGenMatch then iEvent.particles.getD [] else []))))
        thrown := none } := by
  unfold produce
  rw [getParticles_ok cfg iEvent hgen, buildTaus_ok iEvent hv]

theorem produce_fails (X : External) (cfg : Config) (iEvent : Event)
    (h : (cfg.addGenMatch = true ∧ iEvent.particles = none) ∨ ¬ allVerdictsPresent iEvent) :
    (produce X cfg iEvent).log = sourceDiagnostics iEvent ∧
      (produce X cfg iEvent).put = none ∧ (produce X cfg iEvent).thrown ≠ none := by
  by_cases hg : cfg.addGenMatch = true ∧ iEvent.particles = none
  · unfold produce
    rw [getParticles_error cfg iEvent hg]
    simp
  · have hv : ¬ allVerdictsPresent iEvent := by
      rcases h with h | h
      · exact absurd h hg
      · exact h
    have hgen : cfg.addGenMatch = true → iEvent.particles ≠ none := by
      intro h1 h2
      exact hg ⟨h1, h2⟩
    unfold produce
    rw [getParticles_ok cfg iEvent hgen, buildTaus_error iEvent hv]
    simp

theorem produce_log (X : External) (cfg : Config) (iEvent : Event) :
    (produce X cfg iEvent).log = sourceDiagnostics iEvent := by
  by_cases h : (cfg.addGenMatch = true ∧ iEvent.particles = none) ∨ ¬ allVerdictsPresent iEvent
  · exact (produce_fails X cfg iEvent h).1
  · push_neg at h
    rw [produce_completes X cfg iEvent (fun h1 => h.1 h1) h.2]

theorem produce_put (X : External) (cfg : Config) (iEvent : Event) (out : List Tau)
    (hput : (produce X cfg iEvent).put = some out) :
    (cfg.addGenMatch = true → iEvent.particles ≠ none) ∧ allVerdictsPresent iEvent ∧
      (produce X cfg iEvent).thrown = none ∧
      out = X.stdSort (pTTauComparator X) ((survivors iEvent).map
        (enrich X cfg iEvent (if cfg.addGenMatch then iEvent.particles.getD [] else []))) := by
  by_cases h : (cfg.addGenMatch = true ∧ iEvent.particles = none) ∨ ¬ allVerdictsPresent iEvent
  · rw [(produce_fails X cfg iEvent h).2.1] at hput
    cases hput
  · push_neg at h
    have hc := produce_completes X cfg iEvent (fun h1 => h.1 h1) h.2
    rw [hc] at hput
    refine ⟨fun h1 => h.1 h1, h.2, by rw [hc], ?_⟩
    simp only [Option.some.injEq] at hput
    exact hput.symm

theorem produce_perm (X : External) (hs : StdSortContract X.stdSort) (cfg : Config)
    (iEvent : Event) (out : List Tau) (hput : (produce X cfg iEvent).put = some out) :
    out.Perm ((survivors iEvent).map
      (enrich X cfg iEvent (if cfg.addGenMatch then iEvent.particles.getD [] else []))) := by
  rw [(produce_put X cfg iEvent out hput).2.2.2]
  exact hs.1 _ _ _ (pTTauComparator_strictWeakOrder X)

theorem produce_origins_perm (X : External) (hs : StdSortContract X.stdSort) (cfg : Config)
    (iEvent : Event) (out : List Tau) (hput : (produce X cfg iEvent).put = some out) :
    (out.map Tau.origin).Perm ((survivors iEvent).map Tau.origin) := by
  have h := (produce_perm X hs cfg iEvent out hput).map Tau.origin
  simpa [List.map_map, Function.comp_def] using h


/-! ## Properties of `produce` -/

theorem sublist_pair_of_mem {α : Type} {a b : α} (hab : a ≠ b) :
    ∀ l : List α, a ∈ l → b ∈ l → List.Sublist [a, b] l ∨ List.Sublist [b, a] l
  | [], ha, _ => by cases ha
  | x :: xs, ha, hb => by
    rcases List.mem_cons.mp ha with rfl | ha'
    · rcases List.mem_cons.mp hb with h | hb'
      · exact absurd h.symm hab
      · exact Or.inl ((List.singleton_sublist.mpr hb').cons₂ _)
    · rcases List.mem_cons.mp hb with rfl | hb'
      · exact Or.inr ((List.singleton_sublist.mpr ha').cons₂ _)
      · rcases sublist_pair_of_mem hab xs ha' hb' with h | h
        · exact Or.inl (h.cons _)
        · exact Or.inr (h.cons _)

theorem produce_sorted (X : External) (hs : StdSortContract X.stdSort) (cfg : Config)
    (iEvent : Event) (out : List Tau) (hput : (produce X cfg iEvent).put = some out) :
    out.Pairwise (fun a b => X.pt a.base.p4 ≥ X.pt b.base.p4) := by
  rw [(produce_put X cfg iEvent out hput).2.2.2]
  refine (hs.2.1 _ _ _ (pTTauComparator_strictWeakOrder X)).imp ?_
  intro a b h
  simpa [pTTauComparator] using h

/-- Claim C1. When neither the ParticleFlow nor the Calorimeter source
resolves and the generated particles are there if matching asks for them,
`produce` returns normally, puts an empty collection into the event and logs
exactly the one warning of line 81: one warning-level and no error-level
diagnostic. -/
theorem noSource_empty_and_one_warning (X : External) (hs : StdSortContract X.stdSort)
    (cfg : Config) (iEvent : Event)
    (hpf : hasPFtaus iEvent = false) (hcalo : hasCalotaus iEvent = false)
    (hgen : cfg.addGenMatch = true → iEvent.particles ≠ none) :
    (produce X cfg iEvent).put = some [] ∧ (produce X cfg iEvent).thrown = none ∧
      (produce X cfg iEvent).log = [noTauWarning] ∧
      ((produce X cfg iEvent).log.filter Diagnostic.isWarning).length = 1 ∧
      ((produce X cfg iEvent).log.filter Diagnostic.isError).length = 0 := by
  have hv : allVerdictsPresent iEvent := by
    intro r hr
    cases r <;> simp [inSelectedSource, hpf, hcalo] at hr
  have hsurv : survivors iEvent = [] := by
    rcases iEvent with ⟨pf, pfi, calo, caloi, parts⟩
    cases pf <;> cases pfi <;> cases calo <;> cases caloi <;>
      simp_all [survivors, hasPFtaus, hasCalotaus]
  have hlog : sourceDiagnostics iEvent = [noTauWarning] := by
    simp [sourceDiagnostics, hpf, hcalo]
  have hc := produce_completes X cfg iEvent hgen hv
  rw [hsurv, hlog, List.map_nil] at hc
  have hnil : X.stdSort (pTTauComparator X) [] = [] :=
    List.Perm.eq_nil (hs.1 _ _ _ (pTTauComparator_strictWeakOrder X))
  rw [hnil] at hc
  rw [hc]
  simp [noTauWarning, Diagnostic.isWarning, Diagnostic.isError]

/-- Witness for claim C1: the event with no source, all enrichment off. -/
theorem noSource_empty_and_one_warning_witness :
    (hasPFtaus noSourceEvent = false ∧ hasCalotaus noSourceEvent = false ∧
      (allOff.addGenMatch = true → noSourceEvent.particles ≠ none)) ∧
    ((produce sampleExternal allOff noSourceEvent).put = some [] ∧
      (produce sampleExternal allOff noSourceEvent).thrown = none ∧
      (produce sampleExternal allOff noSourceEvent).log = [noTauWarning] ∧
      ((produce sampleExternal allOff noSourceEvent).log.filter
        Diagnostic.isWarning).length = 1 ∧
      ((produce sampleExternal allOff noSourceEvent).log.filter
        Diagnostic.isError).length = 0) :=
  ⟨⟨rfl, rfl, by decide⟩,
   noSource_empty_and_one_warning sampleExternal insertionSort_contract allOff noSourceEvent
     rfl rfl (by decide)⟩

/-- Claim C2. A candidate whose isolation verdict is false has no record in
the published collection, whatever its jet, energy and momentum and whatever
the enrichment flags. -/
theorem falseVerdict_not_published (X : External) (hs : StdSortContract X.stdSort)
    (cfg : Config) (iEvent : Event) (out : List Tau)
    (hput : (produce X cfg iEvent).put = some out)
    (r : TauRef) (hfalse : verdictOf iEvent r = some false) :
    ∀ t ∈ out, t.origin ≠ r := by
  intro t ht heq
  have hmem : r ∈ out.map Tau.origin := heq ▸ List.mem_map_of_mem _ ht
  have hsurv := (produce_origins_perm X hs cfg iEvent out hput).mem_iff.mp hmem
  have := ((mem_survivors_origin iEvent r).mp hsurv).2
  rw [hfalse] at this
  cases this

/-- Witness for claim C2: the second tau of the ParticleFlow event fails
isolation; the published collection holds the third and the first. -/
theorem falseVerdict_not_published_witness :
    ((produce sampleExternal allOff pfEvent).put =
        some [makePFTau 2 samplePFTauC, makePFTau 0 samplePFTauA] ∧
      verdictOf pfEvent (.pf 1) = some false) ∧
    ∀ t ∈ [makePFTau 2 samplePFTauC, makePFTau 0 samplePFTauA], t.origin ≠ .pf 1 :=
  ⟨⟨rfl, rfl⟩,
   falseVerdict_not_published sampleExternal insertionSort_contract allOff pfEvent _
     rfl (.pf 1) rfl⟩

/-- Claim C3. The published collection is ordered by non-increasing
transverse momentum: every record has a pt at least that of every record
after it. -/
theorem output_sorted_by_pt (X : External) (hs : StdSortContract X.stdSort) (cfg : Config)
    (iEvent : Event) (out : List Tau) (hput : (produce X cfg iEvent).put = some out) :
    ∀ (i j : Nat) (hi : i < j) (hj : j < out.length),
      X.pt (out.get ⟨i, Nat.lt_trans hi hj⟩).base.p4 ≥ X.pt (out.get ⟨j, hj⟩).base.p4 := by
  intro i j hi hj
  have h := produce_sorted X hs cfg iEvent out hput
  exact (List.pairwise_iff_get.mp h) ⟨i, Nat.lt_trans hi hj⟩ ⟨j, hj⟩ hi

/-- Witness for claim C3: in the ParticleFlow event the tau of pt 50 is third
in the input and first in the output. -/
theorem output_sorted_by_pt_witness :
    (produce sampleExternal allOff pfEvent).put =
        some [makePFTau 2 samplePFTauC, makePFTau 0 samplePFTauA] ∧
    ∀ (i j : Nat) (hi : i < j)
      (hj : j < [makePFTau 2 samplePFTauC, makePFTau 0 samplePFTauA].length),
      sampleExternal.pt
          ([makePFTau 2 samplePFTauC, makePFTau 0 samplePFTauA].get
            ⟨i, Nat.lt_trans hi hj⟩).base.p4 ≥
        sampleExternal.pt
          ([makePFTau 2 samplePFTauC, makePFTau 0 samplePFTauA].get ⟨j, hj⟩).base.p4 :=
  ⟨rfl, output_sorted_by_pt sampleExternal insertionSort_contract allOff pfEvent _ rfl⟩


/-- Claim C4, as stated, fails. The scan compares `DeltaR` narrowed to
`float`. An eligible generated tau at DeltaR `5 - 2^-30`, strictly below 5, is
narrowed to 5 and not matched: the null candidate is attached. And of two
eligible generated taus at DeltaR `1 + 2^-30` and `1`, equal as `float`s, the
first scanned is attached although the second is strictly closer. -/
theorem genMatch_exact_deltaR_fails :
    (isGenTau nearGenTau = true ∧
      sampleExternal.deltaR nearGenTau.p4 (tauOfPt 40).base.p4 < 5 ∧
      ((produce sampleExternal matchOnly nearMissEvent).put).map (List.map Tau.genLepton) =
        some [some nullGenTau]) ∧
    (isGenTau fartherGenTau = true ∧ isGenTau closeGenTau = true ∧
      sampleExternal.deltaR fartherGenTau.p4 (tauOfPt 40).base.p4 < 5 ∧
      sampleExternal.deltaR closeGenTau.p4 (tauOfPt 40).base.p4 <
        sampleExternal.deltaR fartherGenTau.p4 (tauOfPt 40).base.p4 ∧
      ((produce sampleExternal matchOnly floatTieEvent).put).map (List.map Tau.genLepton) =
        some [some fartherGenTau]) :=
  ⟨⟨by decide, by decide!, by decide!⟩, by decide, by decide, by decide!, by decide!, by decide!⟩

/-- Claim C4, amended. With generator matching on, every published tau
carries a match, and distances count as narrowed to `float`. If some eligible
generated particle (`|pdgId| = 15`, status 2) has a narrowed DeltaR below 5,
the match is an eligible particle of the collection, its narrowed DeltaR (and
so its DeltaR) is below 5, and no eligible particle has a smaller narrowed
DeltaR. If every eligible particle has a narrowed DeltaR of at least 5, in
particular if every one lies at DeltaR above 5, or there is none, the match
is the zero-filled null candidate. In every case the match is the null
candidate or an eligible particle of the collection, never an ineligible
one. -/
theorem genMatch_closest_as_float (X : External) (hs : StdSortContract X.stdSort)
    (cfg : Config) (iEvent : Event) (out : List Tau) (ps : List GenParticleCandidate)
    (hmatch : cfg.addGenMatch = true) (hps : iEvent.particles = some ps)
    (hput : (produce X cfg iEvent).put = some out) :
    ∀ t ∈ out, ∃ m, t.genLepton = some m ∧
      ((∃ g ∈ ps, (g.pdgId.natAbs = 15 ∧ g.status = 2) ∧
          floatOfDouble (X.deltaR g.p4 t.base.p4) < 5) →
        m ∈ ps ∧ (m.pdgId.natAbs = 15 ∧ m.status = 2) ∧
        floatOfDouble (X.deltaR m.p4 t.base.p4) < 5 ∧ X.deltaR m.p4 t.base.p4 < 5 ∧
        ∀ g ∈ ps, (g.pdgId.natAbs = 15 ∧ g.status = 2) →
          floatOfDouble (X.deltaR m.p4 t.base.p4) ≤ floatOfDouble (X.deltaR g.p4 t.base.p4)) ∧
      ((∀ g ∈ ps, (g.pdgId.natAbs = 15 ∧ g.status = 2) →
          5 ≤ floatOfDouble (X.deltaR g.p4 t.base.p4)) →
        m = nullGenTau ∧ m.p4 = ⟨0, 0, 0, 0⟩ ∧ m.pdgId = 0) ∧
      ((∀ g ∈ ps, (g.pdgId.natAbs = 15 ∧ g.status = 2) → 5 < X.deltaR g.p4 t.base.p4) →
        m = nullGenTau ∧ m.p4 = ⟨0, 0, 0, 0⟩ ∧ m.pdgId = 0) ∧
      (m = nullGenTau ∨ (m ∈ ps ∧ (m.pdgId.natAbs = 15 ∧ m.status = 2))) := by
  have hel : ∀ g : GenParticleCandidate,
      isGenTau g = true ↔ (g.pdgId.natAbs = 15 ∧ g.status = 2) := by
    intro g
    simp [isGenTau]
  intro t ht
  have hmem := (produce_perm X hs cfg iEvent out hput).mem_iff.mp ht
  rw [hmatch, hps] at hmem
  simp only [if_true, Option.getD_some, List.mem_map] at hmem
  obtain ⟨s, _, rfl⟩ := hmem
  have hnullOf : (∀ g ∈ ps, (g.pdgId.natAbs = 15 ∧ g.status = 2) →
      5 ≤ floatOfDouble (X.deltaR g.p4 s.base.p4)) →
      bestGenTau X ps s = nullGenTau ∧ (bestGenTau X ps s).p4 = ⟨0, 0, 0, 0⟩ ∧
        (bestGenTau X ps s).pdgId = 0 := by
    intro hfar
    have hnull := bestGenTau_unmatched X ps s (fun g hg he => hfar g hg ((hel g).mp he))
    rw [hnull]
    exact ⟨rfl, rfl, rfl⟩
  refine ⟨bestGenTau X ps s, enrich_genLepton X cfg iEvent ps s hmatch, ?_, ?_, ?_, ?_⟩
  · rintro ⟨g, hg, hge, hgd⟩
    rw [enrich_base] at hgd ⊢
    obtain ⟨h1, h2, h3, h4⟩ := bestGenTau_matched X ps s ⟨g, hg, (hel g).mpr hge, hgd⟩
    refine ⟨h1, (hel _).mp h2, h3, ?_, fun g' hg' he => h4 g' hg' ((hel g').mpr he)⟩
    by_contra hge5
    exact absurd (five_le_floatOfDouble _ (not_lt.mp hge5)) (not_le.mpr h3)
  · intro hfar
    rw [enrich_base] at hfar
    exact hnullOf hfar
  · intro hfar
    rw [enrich_base] at hfar
    exact hnullOf (fun g hg he => five_le_floatOfDouble _ (le_of_lt (hfar g hg he)))
  · rcases bestGenTau_eligible X ps s with h | ⟨h1, h2⟩
    · exact Or.inl h
    · exact Or.inr ⟨h1, (hel _).mp h2⟩

/-- The collection the ParticleFlow event yields with all enrichment on. -/
theorem produce_allOn_pfEvent :
    (produce sampleExternal allOn pfEvent).put = some
      [{ makePFTau 2 samplePFTauC with
          genLepton := some sampleGenTau, resolution := [60], lrValues := [1/2] },
       { makePFTau 0 samplePFTauA with
          genLepton := some sampleGenTau, resolution := [40], lrValues := [0] }] := by
  decide!

/-- Witness for the amended claim C4: in the ParticleFlow event the generated
muon is closer to the first tau than the generated tau, and the generated tau
is the match. -/
theorem genMatch_closest_as_float_witness :
    (allOn.addGenMatch = true ∧ pfEvent.particles = some [sampleGenMuon, sampleGenTau] ∧
      (produce sampleExternal allOn pfEvent).put = some
        [{ makePFTau 2 samplePFTauC with
            genLepton := some sampleGenTau, resolution := [60], lrValues := [1/2] },
         { makePFTau 0 samplePFTauA with
            genLepton := some sampleGenTau, resolution := [40], lrValues := [0] }]) ∧
    ∀ t ∈ [{ makePFTau 2 samplePFTauC with
              genLepton := some sampleGenTau, resolution := [60], lrValues := [1/2] },
           { makePFTau 0 samplePFTauA with
              genLepton := some sampleGenTau, resolution := [40], lrValues := [0] }],
      ∃ m, t.genLepton = some m ∧
        ((∃ g ∈ [sampleGenMuon, sampleGenTau], (g.pdgId.natAbs = 15 ∧ g.status = 2) ∧
            floatOfDouble (sampleExternal.deltaR g.p4 t.base.p4) < 5) →
          m ∈ [sampleGenMuon, sampleGenTau] ∧ (m.pdgId.natAbs = 15 ∧ m.status = 2) ∧
          floatOfDouble (sampleExternal.deltaR m.p4 t.base.p4) < 5 ∧
          sampleExternal.deltaR m.p4 t.base.p4 < 5 ∧
          ∀ g ∈ [sampleGenMuon, sampleGenTau], (g.pdgId.natAbs = 15 ∧ g.status = 2) →
            floatOfDouble (sampleExternal.deltaR m.p4 t.base.p4) ≤
              floatOfDouble (sampleExternal.deltaR g.p4 t.base.p4)) ∧
        ((∀ g ∈ [sampleGenMuon, sampleGenTau], (g.pdgId.natAbs = 15 ∧ g.status = 2) →
            5 ≤ floatOfDouble (sampleExternal.deltaR g.p4 t.base.p4)) →
          m = nullGenTau ∧ m.p4 = ⟨0, 0, 0, 0⟩ ∧ m.pdgId = 0) ∧
        ((∀ g ∈ [sampleGenMuon, sampleGenTau], (g.pdgId.natAbs = 15 ∧ g.status = 2) →
            5 < sampleExternal.deltaR g.p4 t.base.p4) →
          m = nullGenTau ∧ m.p4 = ⟨0, 0, 0, 0⟩ ∧ m.pdgId = 0) ∧
        (m = nullGenTau ∨
          (m ∈ [sampleGenMuon, sampleGenTau] ∧ (m.pdgId.natAbs = 15 ∧ m.status = 2))) :=
  ⟨⟨rfl, rfl, produce_allOn_pfEvent⟩,
   genMatch_closest_as_float sampleExternal insertionSort_contract allOn pfEvent _ _
     rfl rfl produce_allOn_pfEvent⟩

/-- Claim C5. When both sources resolve, `produce` logs exactly the one error
of line 84 (one error-level, no warning-level diagnostic), and every record
of a published collection is the enriched record of a ParticleFlow candidate
with a true verdict; none is built from a Calorimeter candidate. -/
theorem bothSources_use_particleFlow (X : External) (hs : StdSortContract X.stdSort)
    (cfg : Config) (iEvent : Event)
    (hpf : hasPFtaus iEvent = true) (hcalo : hasCalotaus iEvent = true) :
    (produce X cfg iEvent).log = [ambiguousError] ∧
      ((produce X cfg iEvent).log.filter Diagnostic.isError).length = 1 ∧
      ((produce X cfg iEvent).log.filter Diagnostic.isWarning).length = 0 ∧
      ∀ out, (produce X cfg iEvent).put = some out → ∀ t ∈ out,
        (∃ key thePFTau, (iEvent.PFtaus.getD [])[key]? = some thePFTau ∧
          verdictOf iEvent (.pf key) = some true ∧
          t = enrich X cfg iEvent (if cfg.addGenMatch then iEvent.particles.getD [] else [])
            (makePFTau key thePFTau)) ∧
        ∀ key, t.origin ≠ .calo key := by
  have hlog : (produce X cfg iEvent).log = [ambiguousError] := by
    rw [produce_log]
    simp [sourceDiagnostics, hpf, hcalo]
  refine ⟨hlog, ?_, ?_, ?_⟩
  · rw [hlog]; simp [ambiguousError, Diagnostic.isError]
  · rw [hlog]; simp [ambiguousError, Diagnostic.isWarning]
  · intro out hput t ht
    have hmem := (produce_perm X hs cfg iEvent out hput).mem_iff.mp ht
    rcases iEvent with ⟨pf, pfi, calo, caloi, parts⟩
    cases pf with
    | none => simp [hasPFtaus] at hpf
    | some l =>
      cases pfi with
      | none => simp [hasPFtaus] at hpf
      | some iso =>
        simp only [survivors, pfSurvivors, List.map_map, List.mem_map, List.mem_filter,
          Function.comp_apply] at hmem
        obtain ⟨⟨k, c⟩, ⟨hk, hv⟩, rfl⟩ := hmem
        obtain ⟨j, hj, hc⟩ := (mem_withKeys l 0 k c).mp hk
        rw [Nat.zero_add] at hj
        subst hj
        refine ⟨⟨k, c, by simpa using hc, by simpa [verdictOf] using hv, rfl⟩, ?_⟩
        intro key
        simp

/-- Witness for claim C5: the event in which both sources resolve. -/
theorem bothSources_use_particleFlow_witness :
    (hasPFtaus bothEvent = true ∧ hasCalotaus bothEvent = true) ∧
    ((produce sampleExternal allOff bothEvent).log = [ambiguousError] ∧
      ((produce sampleExternal allOff bothEvent).log.filter Diagnostic.isError).length = 1 ∧
      ((produce sampleExternal allOff bothEvent).log.filter Diagnostic.isWarning).length = 0 ∧
      ∀ out, (produce sampleExternal allOff bothEvent).put = some out → ∀ t ∈ out,
        (∃ key thePFTau, (bothEvent.PFtaus.getD [])[key]? = some thePFTau ∧
          verdictOf bothEvent (.pf key) = some true ∧
          t = enrich sampleExternal allOff bothEvent
            (if allOff.addGenMatch then bothEvent.particles.getD [] else [])
            (makePFTau key thePFTau)) ∧
        ∀ key, t.origin ≠ .calo key) :=
  ⟨⟨rfl, rfl⟩,
   bothSources_use_particleFlow sampleExternal insertionSort_contract allOff bothEvent rfl rfl⟩

/-- Claim C6. When generator matching is on and the generated particles are
missing, or some candidate of the selected source has no verdict entry,
`produce` ends with an exception and nothing is put into the event. -/
theorem fatal_publishes_nothing (X : External) (cfg : Config) (iEvent : Event)
    (hfatal : (cfg.addGenMatch = true ∧ iEvent.particles = none) ∨
      (∃ r, inSelectedSource iEvent r = true ∧ verdictOf iEvent r = none)) :
    (produce X cfg iEvent).put = none ∧ (produce X cfg iEvent).thrown ≠ none := by
  refine (produce_fails X cfg iEvent ?_).2
  rcases hfatal with h | ⟨r, hsel, hv⟩
  · exact Or.inl h
  · exact Or.inr (fun hall => hall r hsel hv)

/-- Witness for claim C6: the first tau has a true verdict and is
constructed, the second has no verdict entry; nothing is published. -/
theorem fatal_publishes_nothing_witness :
    ((allOff.addGenMatch = true ∧ missingVerdictEvent.particles = none) ∨
      (∃ r, inSelectedSource missingVerdictEvent r = true ∧
        verdictOf missingVerdictEvent r = none)) ∧
    ((produce sampleExternal allOff missingVerdictEvent).put = none ∧
      (produce sampleExternal allOff missingVerdictEvent).thrown ≠ none) :=
  ⟨Or.inr ⟨.pf 1, rfl, rfl⟩,
   fatal_publishes_nothing sampleExternal allOff missingVerdictEvent
     (Or.inr ⟨.pf 1, rfl, rfl⟩)⟩


/-- Claim C7, as stated, fails. With the GNU implementation of `std::sort`,
seventeen isolated taus of which the second and the third have the same pt
(every other pt occurs once) are published with the third in front of the
second. Nor does the contract of `std::sort` hold the order of ties:
`reversingSort` meets it, and with it two isolated equal-pt taus, first and
second in the input, are published second and first. -/
theorem tie_order_not_input_order :
    ((seventeenTauEvent.PFtaus.getD []).map (fun c => gnuExternal.pt c.base.p4) =
        [50, 30, 30, 20, 60, 10, 70, 80, 90, 15, 25, 35, 45, 55, 65, 75, 85] ∧
      (survivors seventeenTauEvent).map Tau.origin = (List.range 17).map TauRef.pf ∧
      ((produce gnuExternal allOff seventeenTauEvent).put).map (List.map Tau.origin) =
        some [.pf 8, .pf 16, .pf 7, .pf 15, .pf 6, .pf 14, .pf 4, .pf 13, .pf 0, .pf 12,
          .pf 11, .pf 2, .pf 1, .pf 10, .pf 3, .pf 9, .pf 5]) ∧
    (StdSortContract reversingExternal.stdSort ∧
      (tieEvent.PFtaus.getD []).map (fun c => reversingExternal.pt c.base.p4) = [30, 30] ∧
      (survivors tieEvent).map Tau.origin = [.pf 0, .pf 1] ∧
      ((produce reversingExternal allOff tieEvent).put).map (List.map Tau.origin) =
        some [.pf 1, .pf 0]) :=
  ⟨⟨by decide, by decide, by decide⟩, reversingSort_contract, by decide, by decide, by decide⟩

/-- Claim C7, amended. Two distinct candidates of the selected source with
true verdicts each have exactly one record in the published collection, and
when their transverse momenta differ the record of larger pt comes first,
whatever the input order. For equal pt the relative order is the one
`std::sort` leaves, which its contract does not tie to the input order. -/
theorem larger_pt_first (X : External) (hs : StdSortContract X.stdSort) (cfg : Config)
    (iEvent : Event) (out : List Tau) (hput : (produce X cfg iEvent).put = some out)
    (r1 r2 : TauRef) (hne : r1 ≠ r2)
    (h1 : inSelectedSource iEvent r1 = true ∧ verdictOf iEvent r1 = some true)
    (h2 : inSelectedSource iEvent r2 = true ∧ verdictOf iEvent r2 = some true) :
    (out.map Tau.origin).count r1 = 1 ∧ (out.map Tau.origin).count r2 = 1 ∧
    ∃ t1 ∈ out, ∃ t2 ∈ out, t1.origin = r1 ∧ t2.origin = r2 ∧
      (X.pt t1.base.p4 > X.pt t2.base.p4 → List.Sublist [t1, t2] out) ∧
      (X.pt t2.base.p4 > X.pt t1.base.p4 → List.Sublist [t2, t1] out) := by
  have hperm := produce_origins_perm X hs cfg iEvent out hput
  have hnodup : (out.map Tau.origin).Nodup :=
    hperm.nodup_iff.mpr (survivors_origin_nodup iEvent)
  have hm1 : r1 ∈ out.map Tau.origin :=
    hperm.mem_iff.mpr ((mem_survivors_origin iEvent r1).mpr h1)
  have hm2 : r2 ∈ out.map Tau.origin :=
    hperm.mem_iff.mpr ((mem_survivors_origin iEvent r2).mpr h2)
  refine ⟨List.count_eq_one_of_mem hnodup hm1, List.count_eq_one_of_mem hnodup hm2, ?_⟩
  obtain ⟨t1, ht1, rfl⟩ := List.mem_map.mp hm1
  obtain ⟨t2, ht2, rfl⟩ := List.mem_map.mp hm2
  have hsorted := produce_sorted X hs cfg iEvent out hput
  have hne' : t1 ≠ t2 := fun h => hne (by rw [h])
  refine ⟨t1, ht1, t2, ht2, rfl, rfl, ?_, ?_⟩
  · intro hgt
    rcases sublist_pair_of_mem hne' out ht1 ht2 with h | h
    · exact h
    · have := hsorted.sublist h
      simp only [List.pairwise_cons, List.mem_singleton, forall_eq] at this
      exact absurd hgt (not_lt.mpr this.1)
  · intro hgt
    rcases sublist_pair_of_mem hne' out ht1 ht2 with h | h
    · have := hsorted.sublist h
      simp only [List.pairwise_cons, List.mem_singleton, forall_eq] at this
      exact absurd hgt (not_lt.mpr this.1)
    · exact h

/-- Witness for the amended claim C7: in the ParticleFlow event the third tau
(pt 50) is published before the first (pt 30). -/
theorem larger_pt_first_witness :
    ((produce sampleExternal allOff pfEvent).put =
        some [makePFTau 2 samplePFTauC, makePFTau 0 samplePFTauA] ∧
      TauRef.pf 0 ≠ TauRef.pf 2 ∧
      (inSelectedSource pfEvent (.pf 0) = true ∧ verdictOf pfEvent (.pf 0) = some true) ∧
      (inSelectedSource pfEvent (.pf 2) = true ∧ verdictOf pfEvent (.pf 2) = some true)) ∧
    (([makePFTau 2 samplePFTauC, makePFTau 0 samplePFTauA].map Tau.origin).count (.pf 0) = 1 ∧
      ([makePFTau 2 samplePFTauC, makePFTau 0 samplePFTauA].map Tau.origin).count (.pf 2) = 1 ∧
      ∃ t1 ∈ [makePFTau 2 samplePFTauC, makePFTau 0 samplePFTauA],
        ∃ t2 ∈ [makePFTau 2 samplePFTauC, makePFTau 0 samplePFTauA],
          t1.origin = .pf 0 ∧ t2.origin = .pf 2 ∧
          (sampleExternal.pt t1.base.p4 > sampleExternal.pt t2.base.p4 →
            List.Sublist [t1, t2] [makePFTau 2 samplePFTauC, makePFTau 0 samplePFTauA]) ∧
          (sampleExternal.pt t2.base.p4 > sampleExternal.pt t1.base.p4 →
            List.Sublist [t2, t1] [makePFTau 2 samplePFTauC, makePFTau 0 samplePFTauA])) :=
  ⟨⟨rfl, by decide, ⟨rfl, rfl⟩, ⟨rfl, rfl⟩⟩,
   larger_pt_first sampleExternal insertionSort_contract allOff pfEvent _ rfl
     (.pf 0) (.pf 2) (by decide) ⟨rfl, rfl⟩ ⟨rfl, rfl⟩⟩

/-- Claim C8. On an event on which both runs complete, the run with
`addGenMatch`, `addResolutions` and `addLRValues` all false and the run with
all three true publish records of the same raw candidates in the same order,
and the first collection is the second with the generator-match, resolution
and likelihood fields put back to their defaults. -/
theorem enrichment_independence (X : External) (hs : StdSortContract X.stdSort)
    (iEvent : Event) (offOut onOut : List Tau)
    (hoff : (produce X ⟨false, false, false⟩ iEvent).put = some offOut)
    (hon : (produce X ⟨true, true, true⟩ iEvent).put = some onOut) :
    offOut.map Tau.origin = onOut.map Tau.origin ∧
      offOut.map Tau.base = onOut.map Tau.base ∧
      offOut = onOut.map clearEnrichment := by
  have e1 := (produce_put X _ iEvent offOut hoff).2.2.2
  have e2 := (produce_put X _ iEvent onOut hon).2.2.2
  simp only [if_true] at e2
  have hid : (survivors iEvent).map (enrich X ⟨false, false, false⟩ iEvent
      (if (⟨false, false, false⟩ : Config).addGenMatch then iEvent.particles.getD []
        else [])) = survivors iEvent :=
    (List.map_congr_left (fun t _ => enrich_allOff X iEvent _ t)).trans (List.map_id _)
  rw [hid] at e1
  have hnat : X.stdSort (pTTauComparator X) ((survivors iEvent).map
      (enrich X ⟨true, true, true⟩ iEvent (iEvent.particles.getD []))) =
      (X.stdSort (pTTauComparator X) (survivors iEvent)).map
        (enrich X ⟨true, true, true⟩ iEvent (iEvent.particles.getD [])) :=
    hs.2.2 Tau Tau (enrich X ⟨true, true, true⟩ iEvent (iEvent.particles.getD []))
      (pTTauComparator X) (pTTauComparator X) (survivors iEvent)
      (pTTauComparator_strictWeakOrder X) (pTTauComparator_enrich X _ iEvent _)
  rw [hnat, ← e1] at e2
  have hclear : ∀ t ∈ offOut, clearEnrichment t = t := by
    intro t ht
    have hp : offOut.Perm (survivors iEvent) := by
      rw [e1]
      exact hs.1 _ _ _ (pTTauComparator_strictWeakOrder X)
    exact survivors_clear iEvent t (hp.mem_iff.mp ht)
  have h3 : offOut = onOut.map clearEnrichment := by
    rw [e2, List.map_map]
    conv_lhs => rw [← List.map_id offOut]
    apply List.map_congr_left
    intro t ht
    simp only [Function.comp_apply, id_eq]
    rw [enrich_clear, hclear t ht]
  refine ⟨?_, ?_, h3⟩
  · rw [e2, List.map_map]
    apply List.map_congr_left
    intro t _
    simp
  · rw [e2, List.map_map]
    apply List.map_congr_left
    intro t _
    simp

/-- Witness for claim C8: the ParticleFlow event, run with all enrichment off
and with all enrichment on. -/
theorem enrichment_independence_witness :
    ((produce sampleExternal ⟨false, false, false⟩ pfEvent).put =
        some [makePFTau 2 samplePFTauC, makePFTau 0 samplePFTauA] ∧
      (produce sampleExternal ⟨true, true, true⟩ pfEvent).put = some
        [{ makePFTau 2 samplePFTauC with
            genLepton := some sampleGenTau, resolution := [60], lrValues := [1/2] },
         { makePFTau 0 samplePFTauA with
            genLepton := some sampleGenTau, resolution := [40], lrValues := [0] }]) ∧
    ([makePFTau 2 samplePFTauC, makePFTau 0 samplePFTauA].map Tau.origin =
        [{ makePFTau 2 samplePFTauC with
            genLepton := some sampleGenTau, resolution := [60], lrValues := [1/2] },
         { makePFTau 0 samplePFTauA with
            genLepton := some sampleGenTau, resolution := [40], lrValues := [0] }].map
          Tau.origin ∧
      [makePFTau 2 samplePFTauC, makePFTau 0 samplePFTauA].map Tau.base =
        [{ makePFTau 2 samplePFTauC with
            genLepton := some sampleGenTau, resolution := [60], lrValues := [1/2] },
         { makePFTau 0 samplePFTauA with
            genLepton := some sampleGenTau, resolution := [40], lrValues := [0] }].map
          Tau.base ∧
      [makePFTau 2 samplePFTauC, makePFTau 0 samplePFTauA] =
        [{ makePFTau 2 samplePFTauC with
            genLepton := some sampleGenTau, resolution := [60], lrValues := [1/2] },
         { makePFTau 0 samplePFTauA with
            genLepton := some sampleGenTau, resolution := [40], lrValues := [0] }].map
          clearEnrichment) :=
  ⟨⟨rfl, produce_allOn_pfEvent⟩,
   enrichment_independence sampleExternal insertionSort_contract pfEvent _ _ rfl
     produce_allOn_pfEvent⟩

/-- Claim C9. A candidate of the selected source with a true verdict whose
jet does not cast to the expected type does not make `produce` fail: on an
event with no fatal condition the call returns normally and publishes exactly
one record of that candidate, with `emEnergyFraction` and `eOverP` at the
values of a freshly constructed record. -/
theorem jetCast_failure_not_fatal (X : External) (hs : StdSortContract X.stdSort)
    (cfg : Config) (iEvent : Event)
    (hgen : cfg.addGenMatch = true → iEvent.particles ≠ none)
    (hall : allVerdictsPresent iEvent)
    (r : TauRef) (hsel : inSelectedSource iEvent r = true)
    (htrue : verdictOf iEvent r = some true) (hcast : jetCastFails iEvent r = true) :
    (produce X cfg iEvent).thrown = none ∧
      ∃ out, (produce X cfg iEvent).put = some out ∧
        (out.map Tau.origin).count r = 1 ∧
        ∀ t ∈ out, t.origin = r →
          t.emEnergyFraction = (Tau.ofCandidate r t.base).emEnergyFraction ∧
          t.eOverP = (Tau.ofCandidate r t.base).eOverP := by
  have hc := produce_completes X cfg iEvent hgen hall
  have hput : (produce X cfg iEvent).put = some (X.stdSort (pTTauComparator X)
      ((survivors iEvent).map
        (enrich X cfg iEvent (if cfg.addGenMatch then iEvent.particles.getD [] else [])))) := by
    rw [hc]
  refine ⟨by rw [hc], _, hput, ?_, ?_⟩
  · have hperm := produce_origins_perm X hs cfg iEvent _ hput
    exact List.count_eq_one_of_mem (hperm.nodup_iff.mpr (survivors_origin_nodup iEvent))
      (hperm.mem_iff.mpr ((mem_survivors_origin iEvent r).mpr ⟨hsel, htrue⟩))
  · intro t ht hr
    have hmem := (produce_perm X hs cfg iEvent _ hput).mem_iff.mp ht
    obtain ⟨s, hs', rfl⟩ := List.mem_map.mp hmem
    rw [enrich_origin] at hr
    have hdef := survivors_castFails iEvent s hs' (hr ▸ hcast)
    rw [enrich_emEnergyFraction, enrich_eOverP, enrich_base]
    constructor
    · conv_lhs => rw [hdef]
      rfl
    · conv_lhs => rw [hdef]
      rfl

/-- Witness for claim C9: the first tau of the ParticleFlow event has a true
verdict and a jet that is not a `PFJet`. -/
theorem jetCast_failure_not_fatal_witness :
    ((allOff.addGenMatch = true → pfEvent.particles ≠ none) ∧ allVerdictsPresent pfEvent ∧
      inSelectedSource pfEvent (.pf 0) = true ∧ verdictOf pfEvent (.pf 0) = some true ∧
      jetCastFails pfEvent (.pf 0) = true) ∧
    ((produce sampleExternal allOff pfEvent).thrown = none ∧
      ∃ out, (produce sampleExternal allOff pfEvent).put = some out ∧
        (out.map Tau.origin).count (.pf 0) = 1 ∧
        ∀ t ∈ out, t.origin = .pf 0 →
          t.emEnergyFraction = (Tau.ofCandidate (.pf 0) t.base).emEnergyFraction ∧
          t.eOverP = (Tau.ofCandidate (.pf 0) t.base).eOverP) :=
  have hall : allVerdictsPresent pfEvent := by
    intro r hr
    cases r with
    | pf key =>
      have hk : key < 3 := by simpa [inSelectedSource, hasPFtaus, pfEvent] using hr
      interval_cases key <;> simp [verdictOf, pfEvent]
    | calo key => simp [inSelectedSource, hasPFtaus, pfEvent] at hr
  ⟨⟨by decide, hall, rfl, rfl, rfl⟩,
   jetCast_failure_not_fatal sampleExternal insertionSort_contract allOff pfEvent
     (by decide) hall (.pf 0) rfl rfl rfl⟩

/-- Claim C10. A published collection is a permutation of the enriched
records of exactly the true-verdict candidates of the selected source: every
such candidate has exactly one record, every other reference has none, and
the length of the collection is the number of true verdicts (zero when no
source is selected). -/
theorem output_is_permutation_of_survivors (X : External) (hs : StdSortContract X.stdSort)
    (cfg : Config) (iEvent : Event) (out : List Tau)
    (hput : (produce X cfg iEvent).put = some out) :
    out.Perm ((survivors iEvent).map
        (enrich X cfg iEvent (if cfg.addGenMatch then iEvent.particles.getD [] else []))) ∧
      (∀ r, (out.map Tau.origin).count r =
        if inSelectedSource iEvent r = true ∧ verdictOf iEvent r = some true then 1 else 0) ∧
      out.length = trueVerdictCount iEvent ∧
      (hasPFtaus iEvent = false → hasCalotaus iEvent = false → out.length = 0) := by
  have hperm := produce_perm X hs cfg iEvent out hput
  have hoperm := produce_origins_perm X hs cfg iEvent out hput
  have hlen : out.length = trueVerdictCount iEvent := by
    rw [hperm.length_eq, List.length_map, survivors_length]
  refine ⟨hperm, ?_, hlen, ?_⟩
  · intro r
    rw [List.count_eq_of_nodup (hoperm.nodup_iff.mpr (survivors_origin_nodup iEvent))]
    simp only [hoperm.mem_iff, mem_survivors_origin]
  · intro hpf hcalo
    rw [hlen]
    simp [trueVerdictCount, hpf, hcalo]

/-- Witness for claim C10: the ParticleFlow event, whose first and third tau
have true verdicts. -/
theorem output_is_permutation_of_survivors_witness :
    (produce sampleExternal allOff pfEvent).put =
        some [makePFTau 2 samplePFTauC, makePFTau 0 samplePFTauA] ∧
    ([makePFTau 2 samplePFTauC, makePFTau 0 samplePFTauA].Perm ((survivors pfEvent).map
        (enrich sampleExternal allOff pfEvent
          (if allOff.addGenMatch then pfEvent.particles.getD [] else []))) ∧
      (∀ r, ([makePFTau 2 samplePFTauC, makePFTau 0 samplePFTauA].map Tau.origin).count r =
        if inSelectedSource pfEvent r = true ∧ verdictOf pfEvent r = some true then 1 else 0) ∧
      [makePFTau 2 samplePFTauC, makePFTau 0 samplePFTauA].length = trueVerdictCount pfEvent ∧
      (hasPFtaus pfEvent = false → hasCalotaus pfEvent = false →
        [makePFTau 2 samplePFTauC, makePFTau 0 samplePFTauA].length = 0)) :=
  ⟨rfl,
   output_is_permutation_of_survivors sampleExternal insertionSort_contract allOff pfEvent _
     rfl⟩

end PATTauProducer
